import Mathlib

/-!
Verification development for the privacy-vulnerability detector
(`backend/script/detect.py` with its RPC helper `bitcoin_rpc.py`).

Modelling conventions, fixed once for the whole file:
* All monetary amounts are carried in satoshis (`Int`).  The Python source
  receives BTC floats from the node and converts with `int(round(x * 1e8))`;
  the spec's own data model states amounts in sats, so the embedding works
  in sats directly.
* The external node (`bitcoin-cli getrawtransaction`) is modelled as a finite
  association list `chain : List (String × DecodedTx)`; `get_tx` succeeds
  exactly on the txids present there and raises otherwise (`Except`).
* Python `dict` / `set` iteration orders are fixed by the snapshot: dicts are
  association lists in insertion order, sets are deduplicated lists.
* Python string comparison is code-point lexicographic; `strLeB` mirrors it.
* Python `round` (and the `:.0f` format) round half to even; `pyRoundDiv a b`
  is round-half-even of `a / b` for `b > 0`, computed on integers.
-/

namespace Detect

/-! ## Generic helpers -/

/-- Code-point lexicographic strict order on character lists, as Python
compares strings. -/
def strLtChars : List Char → List Char → Bool
  | [], [] => false
  | [], _ :: _ => true
  | _ :: _, [] => false
  | a :: as, b :: bs =>
      if a.val.toNat < b.val.toNat then true
      else if b.val.toNat < a.val.toNat then false
      else strLtChars as bs

/-- Python-style `<=` on strings (code-point lexicographic). -/
def strLeB (a b : String) : Bool := !(strLtChars b.data a.data)

/-- Insert into a sorted list, keeping earlier elements first on ties
(stability, as Python's sort). -/
def insertLe {α : Type} (le : α → α → Bool) (a : α) : List α → List α
  | [] => [a]
  | b :: bs => if le a b then a :: b :: bs else b :: insertLe le a bs

/-- Stable insertion sort; extensionally the list Python's stable `sorted`
produces for the same (total) key order. -/
def sortLe {α : Type} (le : α → α → Bool) : List α → List α
  | [] => []
  | a :: as => insertLe le a (sortLe le as)

theorem mem_insertLe {α : Type} (le : α → α → Bool) (a x : α) (l : List α) :
    x ∈ insertLe le a l ↔ x = a ∨ x ∈ l := by
  induction l with
  | nil => simp [insertLe]
  | cons b bs ih =>
      by_cases h : le a b = true
      · simp [insertLe, h]
      · simp only [insertLe, h, if_neg, Bool.not_eq_true] at *
        simp [List.mem_cons, ih]
        tauto

theorem mem_sortLe {α : Type} (le : α → α → Bool) (x : α) (l : List α) :
    x ∈ sortLe le l ↔ x ∈ l := by
  induction l with
  | nil => simp [sortLe]
  | cons a as ih => simp [sortLe, mem_insertLe, ih]

/-- Round half to even of the rational `a / b` (for `b > 0`), using only
integer arithmetic; this is Python's `round` and its `:.0f` format. -/
def pyRoundDiv (a b : Int) : Int :=
  let f := Int.fdiv a b
  let r2 := 2 * (a - f * b)
  if b < r2 then f + 1
  else if r2 < b then f
  else if f % 2 = 0 then f else f + 1

/-- Sequential accumulation of per-item finding lists in `Except`, in list
order, aborting at the first error — the behaviour of a Python `for` loop
that appends to the global `FINDINGS` and does not catch exceptions. -/
def collectM {ε α β : Type} (f : α → Except ε (List β)) : List α → Except ε (List β)
  | [] => .ok []
  | x :: xs => do
      let h ← f x
      let r ← collectM f xs
      pure (h ++ r)

/-- Sequential `Except`-valued map (a Python `for` loop building a list). -/
def mapME {ε α β : Type} (f : α → Except ε β) : List α → Except ε (List β)
  | [] => .ok []
  | x :: xs => do
      let y ← f x
      let ys ← mapME f xs
      pure (y :: ys)

/-- Sequential `Except`-valued fold (a Python `for` loop updating
accumulators). -/
def foldME {ε α β : Type} (f : β → α → Except ε β) (init : β) : List α → Except ε β
  | [] => .ok init
  | x :: xs => do
      let b ← f init x
      foldME f b xs

instance {ε α : Type} [DecidableEq ε] [DecidableEq α] : DecidableEq (Except ε α)
  | .ok a, .ok b =>
      if h : a = b then .isTrue (by rw [h]) else .isFalse (by intro c; cases c; exact h rfl)
  | .error a, .error b =>
      if h : a = b then .isTrue (by rw [h]) else .isFalse (by intro c; cases c; exact h rfl)
  | .ok _, .error _ => .isFalse (by intro c; cases c)
  | .error _, .ok _ => .isFalse (by intro c; cases c)

theorem collectM_ok_mem {ε α β : Type} (f : α → Except ε (List β)) (xs : List α)
    (ys : List β) (h : collectM f xs = .ok ys) (b : β) (hb : b ∈ ys) :
    ∃ x ∈ xs, ∃ l, f x = .ok l ∧ b ∈ l := by
  induction xs generalizing ys with
  | nil =>
      simp [collectM] at h
      subst h
      cases hb
  | cons x rest ih =>
      simp only [collectM, bind, Except.bind] at h
      cases hfx : f x with
      | error e => rw [hfx] at h; cases h
      | ok l =>
          rw [hfx] at h
          cases hrest : collectM f rest with
          | error e => rw [hrest] at h; cases h
          | ok ls =>
              rw [hrest] at h
              simp only [pure, Except.pure, Except.ok.injEq] at h
              subst h
              rcases List.mem_append.mp hb with hl | hr
              · exact ⟨x, by simp, l, hfx, hl⟩
              · obtain ⟨x', hx', l', hfl', hb'⟩ := ih ls hrest hr
                exact ⟨x', by simp [hx'], l', hfl', hb'⟩

theorem collectM_mem_of_ok {ε α β : Type} (f : α → Except ε (List β)) (xs : List α)
    (ys : List β) (h : collectM f xs = .ok ys) (x : α) (hx : x ∈ xs)
    (l : List β) (hfx : f x = .ok l) (b : β) (hb : b ∈ l) : b ∈ ys := by
  induction xs generalizing ys with
  | nil => cases hx
  | cons x0 rest ih =>
      simp only [collectM, bind, Except.bind] at h
      cases hfx0 : f x0 with
      | error e => rw [hfx0] at h; cases h
      | ok l0 =>
          rw [hfx0] at h
          cases hrest : collectM f rest with
          | error e => rw [hrest] at h; cases h
          | ok ls =>
              rw [hrest] at h
              simp only [pure, Except.pure, Except.ok.injEq] at h
              subst h
              rcases List.mem_cons.mp hx with hx0 | hxr
              · subst hx0
                rw [hfx0] at hfx
                cases hfx
                exact List.mem_append.mpr (Or.inl hb)
              · exact List.mem_append.mpr (Or.inr (ih ls hrest hxr))

/-- Association-list lookup produces a member of the list. -/
theorem lookup_mem {β : Type} (l : List (String × β)) (k : String) (v : β)
    (h : l.lookup k = some v) : (k, v) ∈ l := by
  induction l with
  | nil => cases h
  | cons e rest ih =>
      rcases e with ⟨k', v'⟩
      by_cases hk : k = k'
      · subst hk
        simp only [List.lookup, beq_self_eq_true] at h
        cases h
        simp
      · have hb : (k == k') = false := beq_eq_false_iff_ne.mpr hk
        simp only [List.lookup, hb] at h
        exact List.mem_cons_of_mem _ (ih h)

theorem lookup_append_left {β : Type} (l1 l2 : List (String × β)) (k : String) (v : β)
    (h : l1.lookup k = some v) : (l1 ++ l2).lookup k = some v := by
  induction l1 with
  | nil => cases h
  | cons e rest ih =>
      rcases e with ⟨k', v'⟩
      by_cases hk : k = k'
      · subst hk
        simp only [List.cons_append, List.lookup, beq_self_eq_true] at h ⊢
        exact h
      · have hb : (k == k') = false := beq_eq_false_iff_ne.mpr hk
        simp only [List.cons_append, List.lookup, hb] at h ⊢
        exact ih h

theorem lookup_append_right {β : Type} (l1 l2 : List (String × β)) (k : String)
    (h : l1.lookup k = none) : (l1 ++ l2).lookup k = l2.lookup k := by
  induction l1 with
  | nil => simp
  | cons e rest ih =>
      rcases e with ⟨k', v'⟩
      by_cases hk : k = k'
      · subst hk
        simp only [List.lookup, beq_self_eq_true] at h
        cases h
      · have hb : (k == k') = false := beq_eq_false_iff_ne.mpr hk
        simp only [List.cons_append, List.lookup, hb] at h ⊢
        exact ih h

theorem length_filter_eq_length_iff {α : Type} (p : α → Bool) (l : List α) :
    (l.filter p).length = l.length ↔ ∀ a ∈ l, p a = true := by
  induction l with
  | nil => simp
  | cons x xs ih =>
      by_cases hp : p x = true
      · simp [List.filter, hp, ih]
      · simp only [List.filter, hp, Bool.false_eq_true, ite_false, List.length_cons]
        constructor
        · intro h
          exact absurd h (by
            have := List.length_filter_le p xs
            omega)
        · intro h
          exact absurd (h x (by simp)) (by simp [hp])

/-! ## Data model (decoded transactions, wallet records, UTXOs) -/

/-- One output of a decoded transaction: `value` (sats),
index `n`, `scriptPubKey.address` (empty string when absent) and
`scriptPubKey.type` ("unknown" when absent). -/
structure TxOut where
  value : Int
  n : Nat
  address : String
  stype : String
deriving DecidableEq

/-- One input of a decoded transaction: either a coinbase input or a spend of
`txid:vout`, each carrying its `sequence` (defaulted to 0xffffffff when the
decoder omits it, as the source's `.get`). -/
inductive Vin where
  | coinbase (sequence : Nat)
  | spend (txid : String) (vout : Nat) (sequence : Nat)
deriving DecidableEq

/-- Decoded transaction as returned by `getrawtransaction … true`
(`confirmations` defaulted to 0, `vsize` to 0 when absent). -/
structure DecodedTx where
  version : Int
  locktime : Nat
  vsize : Nat
  confirmations : Nat
  vin : List Vin
  vout : List TxOut
deriving DecidableEq

/-- Metadata stored by `derive_all_addresses` for one derived address. -/
structure AddrMeta where
  dtype : String
  internal : Bool
  index : Nat
deriving DecidableEq

/-- One `listtransactions` record (one (address, tx) touch). -/
structure WalletEntry where
  txid : String
  address : String
  category : String
  amountSats : Int
  confirmations : Int
  blockheight : Int
deriving DecidableEq

/-- One `listunspent` record (address "" when absent, as `.get("address","")`). -/
structure Utxo where
  txid : String
  vout : Nat
  address : String
  amountSats : Int
  confirmations : Int
deriving DecidableEq

/-- The analysis snapshot: the inputs `TxGraph.__init__` receives, plus the
external node's decode oracle `chain` (txid ↦ decoded transaction;
`get_tx` raises on txids not present). -/
structure TxGraph where
  addr_map : List (String × AddrMeta)
  wallet_txs : List WalletEntry
  utxos : List Utxo
  chain : List (String × DecodedTx)
deriving DecidableEq

/-- `self.our_addrs = set(addr_map.keys())`. -/
def TxGraph.our_addrs (g : TxGraph) : List String := (g.addr_map.map Prod.fst).dedup

/-- `self.our_txids`: the distinct nonempty txids of the wallet history. -/
def TxGraph.our_txids (g : TxGraph) : List String :=
  ((g.wallet_txs.map (·.txid)).filter (fun t => !(t == ""))).dedup

/-- `self.addr_txs[addr]`: the wallet-history records indexed under `addr`
(only records with nonempty txid and address are inserted). -/
def TxGraph.addr_txs (g : TxGraph) (a : String) : List WalletEntry :=
  g.wallet_txs.filter (fun w => !(w.txid == "") && !(w.address == "") && w.address == a)

/-- `is_ours`: exact membership in the derived address set. -/
def TxGraph.is_ours (g : TxGraph) (a : String) : Bool := g.our_addrs.contains a

/-! ## The fetch layer: external decode calls and the session cache -/

/-- `bitcoin_rpc.get_tx`: one external decode call; raises
(`Except.error`) when `bitcoin-cli` fails. -/
def get_tx (g : TxGraph) (t : String) : Except String DecodedTx :=
  match g.chain.lookup t with
  | some tx => .ok tx
  | none => .error "bitcoin-cli error"

/-- The mutable state of `TxGraph.fetch_tx`: the session cache `tx_cache`
plus a log of the external decode calls issued so far. -/
structure FetchState where
  tx_cache : List (String × DecodedTx)
  calls : List String
deriving DecidableEq

/-- `TxGraph.fetch_tx` with its `try/except` boundary made explicit: any
`get_tx` failure is caught and converted to `none`; the result is therefore
always `.ok`.  A successful decode is stored in the cache; a failure stores
nothing. -/
def TxGraph.fetch_txE (g : TxGraph) (st : FetchState) (t : String) :
    Except String (Option DecodedTx × FetchState) :=
  match st.tx_cache.lookup t with
  | some tx => .ok (some tx, st)
  | none =>
      let st1 : FetchState := ⟨st.tx_cache, st.calls ++ [t]⟩
      match get_tx g t with
      | .ok tx => .ok (some tx, ⟨st1.tx_cache ++ [(t, tx)], st1.calls⟩)
      | .error _ => .ok (none, st1)

/-- `TxGraph.fetch_tx` as the total function it is (its `except` clause
catches every exception). -/
def TxGraph.fetch_tx (g : TxGraph) (st : FetchState) (t : String) :
    Option DecodedTx × FetchState :=
  match st.tx_cache.lookup t with
  | some tx => (some tx, st)
  | none =>
      let st1 : FetchState := ⟨st.tx_cache, st.calls ++ [t]⟩
      match get_tx g t with
      | .ok tx => (some tx, ⟨st1.tx_cache ++ [(t, tx)], st1.calls⟩)
      | .error _ => (none, st1)

/-- A sequence of `fetch_tx` calls starting from the fresh per-run state. -/
def TxGraph.run_fetches (g : TxGraph) (ts : List String) : FetchState :=
  ts.foldl (fun st t => (g.fetch_tx st t).2) ⟨[], []⟩

/-- Cache-consistency invariant: every cache entry is what the oracle
returns.  It holds for the fresh state and is preserved by `fetch_tx`. -/
def cacheConsistent (g : TxGraph) (st : FetchState) : Prop :=
  ∀ t tx, st.tx_cache.lookup t = some tx → g.chain.lookup t = some tx

/-- The value `fetch_tx` returns is the pure oracle view `chain.lookup`,
whenever the cache is consistent — the cache changes which external calls
happen, never which value a caller sees.  This justifies embedding the
detectors over the pure oracle. -/
theorem fetch_tx_pure (g : TxGraph) (st : FetchState) (t : String)
    (h : cacheConsistent g st) :
    (g.fetch_tx st t).1 = g.chain.lookup t ∧ cacheConsistent g (g.fetch_tx st t).2 := by
  unfold TxGraph.fetch_tx
  cases hc : st.tx_cache.lookup t with
  | some tx =>
      exact ⟨(h t tx hc).symm, h⟩
  | none =>
      unfold get_tx
      cases ho : g.chain.lookup t with
      | some tx =>
          refine ⟨rfl, ?_⟩
          intro t' tx' hl
          replace hl : (st.tx_cache ++ [(t, tx)]).lookup t' = some tx' := hl
          by_cases ht' : st.tx_cache.lookup t' = none
          · rw [lookup_append_right _ _ _ ht'] at hl
            by_cases hk : t' = t
            · subst hk
              simp only [List.lookup, beq_self_eq_true] at hl
              cases hl
              exact ho
            · have hb : (t' == t) = false := beq_eq_false_iff_ne.mpr hk
              simp only [List.lookup, hb] at hl
              exact Option.noConfusion hl
          · rcases hv : st.tx_cache.lookup t' with _ | v
            · exact absurd hv ht'
            · rw [lookup_append_left _ _ _ _ hv] at hl
              cases hl
              exact h t' _ hv
      | none => exact ⟨rfl, h⟩

/-! ## Claim C2 — at-most-one decode per txid -/

set_option maxRecDepth 8192

/-- Per-txid call-count invariant used for the amended C2. -/
def callInv (t : String) (st : FetchState) : Prop :=
  st.calls.count t ≤ 1 ∧ (st.calls.count t = 1 → (st.tx_cache.lookup t).isSome = true)

theorem count_one_self (t : String) : List.count t [t] = 1 := by
  simp [List.count_singleton]

theorem count_one_ne (t t' : String) (h : t' ≠ t) : List.count t [t'] = 0 := by
  simp [List.count_singleton, beq_eq_false_iff_ne.mpr h]

theorem fetch_tx_callInv (g : TxGraph) (st : FetchState) (t t' : String)
    (hdec : (g.chain.lookup t).isSome = true) (h : callInv t st) :
    callInv t (g.fetch_tx st t').2 := by
  unfold TxGraph.fetch_tx
  cases hc : st.tx_cache.lookup t' with
  | some tx => exact h
  | none =>
      unfold get_tx
      cases ho : g.chain.lookup t' with
      | some tx =>
          by_cases ht : t' = t
          · subst ht
            have h0 : st.calls.count t' = 0 := by
              by_contra hne
              have h1 : st.calls.count t' = 1 := by
                have := h.1
                omega
              have := h.2 h1
              rw [hc] at this
              simp at this
            refine ⟨?_, ?_⟩
            · show List.count t' (st.calls ++ [t']) ≤ 1
              rw [List.count_append, h0, count_one_self]
            · intro _
              show ((st.tx_cache ++ [(t', tx)]).lookup t').isSome = true
              rw [lookup_append_right _ _ _ hc]
              simp [List.lookup]
          · refine ⟨?_, ?_⟩
            · show List.count t (st.calls ++ [t']) ≤ 1
              rw [List.count_append, count_one_ne t t' ht]
              simpa using h.1
            · intro hcnt
              replace hcnt : List.count t (st.calls ++ [t']) = 1 := hcnt
              rw [List.count_append, count_one_ne t t' ht] at hcnt
              have := h.2 (by omega)
              obtain ⟨v, hv⟩ := Option.isSome_iff_exists.mp this
              show ((st.tx_cache ++ [(t', tx)]).lookup t).isSome = true
              rw [lookup_append_left _ _ _ _ hv]
              rfl
      | none =>
          by_cases ht : t' = t
          · subst ht
            rw [ho] at hdec
            simp at hdec
          · refine ⟨?_, ?_⟩
            · show List.count t (st.calls ++ [t']) ≤ 1
              rw [List.count_append, count_one_ne t t' ht]
              simpa using h.1
            · intro hcnt
              replace hcnt : List.count t (st.calls ++ [t']) = 1 := hcnt
              rw [List.count_append, count_one_ne t t' ht] at hcnt
              exact h.2 (by omega)

theorem run_fetches_callInv (g : TxGraph) (ts : List String) (t : String)
    (hdec : (g.chain.lookup t).isSome = true) (st : FetchState) (h : callInv t st) :
    callInv t (ts.foldl (fun st t => (g.fetch_tx st t).2) st) := by
  induction ts generalizing st with
  | nil => exact h
  | cons x rest ih =>
      simp only [List.foldl]
      exact ih _ (fetch_tx_callInv g st t x hdec h)

/-- C2 (amended): a txid the external node can decode is decoded at most
once per run, however many `fetch_tx` calls reference it.  (The claim as
stated — covering failed fetches too — is refuted by
`c2_claim_counterexample`: failures are not cached, so a failing txid is
re-fetched on every call.) -/
theorem fetch_decode_at_most_once (g : TxGraph) (ts : List String) (t : String)
    (hdec : (g.chain.lookup t).isSome = true) :
    (g.run_fetches ts).calls.count t ≤ 1 := by
  have h0 : callInv t ⟨[], []⟩ := by
    constructor
    · simp [List.count]
    · intro h
      simp [List.count] at h
  exact (run_fetches_callInv g ts t hdec ⟨[], []⟩ h0).1

/-- A decodable one-transaction chain used as concrete input. -/
def txW : DecodedTx :=
  ⟨2, 0, 110, 1, [Vin.coinbase 4294967295], [⟨5000000000, 0, "addrW", "witness_v0_keyhash"⟩]⟩

/-- Concrete graph whose chain knows txid "w" only. -/
def gW : TxGraph := ⟨[], [], [], [("w", txW)]⟩

theorem fetch_decode_at_most_once_witness :
    (gW.chain.lookup "w").isSome = true ∧ (gW.run_fetches ["w", "w", "w"]).calls.count "w" ≤ 1 :=
  ⟨by decide, fetch_decode_at_most_once gW ["w", "w", "w"] "w" (by decide)⟩

/-- Concrete graph whose chain is empty: every decode call fails. -/
def gEmptyChain : TxGraph := ⟨[], [], [], []⟩

/-- C2 (counterexample to the claim as stated): after a FAILED fetch of a
txid, a second `fetch_tx` call with the same txid issues a second external
decode call — failures are not cached, so "at most one decode per txid per
run, whether the first fetch succeeded or failed" is false. -/
theorem c2_claim_counterexample :
    ¬ ((gEmptyChain.run_fetches ["missing", "missing"]).calls.count "missing" ≤ 1) := by
  decide

/-! ## Claim C9 — fetch_tx never raises; failures become an explicit none -/

/-- C9: `fetch_tx` either answers from the cache (no external call) or
issues one decode call; a failing `get_tx` is caught and surfaced as the
explicit "not found" value `none` with no cache entry — the `Except.error`
of `get_tx` never escapes `fetch_txE`. -/
theorem fetch_tx_never_raises (g : TxGraph) (st : FetchState) (t : String) :
    (∃ r, g.fetch_txE st t = .ok r ∧ r = g.fetch_tx st t)
    ∧ (∀ tx, st.tx_cache.lookup t = some tx → g.fetch_tx st t = (some tx, st))
    ∧ (st.tx_cache.lookup t = none →
        (∀ tx, get_tx g t = .ok tx →
            g.fetch_tx st t = (some tx, ⟨st.tx_cache ++ [(t, tx)], st.calls ++ [t]⟩))
        ∧ (∀ e, get_tx g t = .error e →
            g.fetch_tx st t = (none, ⟨st.tx_cache, st.calls ++ [t]⟩))) := by
  refine ⟨⟨g.fetch_tx st t, ?_, rfl⟩, ?_, ?_⟩
  · unfold TxGraph.fetch_txE TxGraph.fetch_tx
    cases st.tx_cache.lookup t with
    | some tx => rfl
    | none =>
        cases get_tx g t with
        | ok tx => rfl
        | error e => rfl
  · intro tx htx
    unfold TxGraph.fetch_tx
    rw [htx]
  · intro hnone
    constructor
    · intro tx htx
      unfold TxGraph.fetch_tx
      rw [hnone, htx]
    · intro e he
      unfold TxGraph.fetch_tx
      rw [hnone, he]

theorem fetch_tx_never_raises_witness :
    (gEmptyChain.fetch_tx ⟨[], []⟩ "missing" = (none, ⟨[], ["missing"]⟩)) ∧
    (gW.fetch_tx ⟨[], []⟩ "w" = (some txW, ⟨[("w", txW)], ["w"]⟩)) := by
  have h1 := fetch_tx_never_raises gEmptyChain ⟨[], []⟩ "missing"
  have h2 := fetch_tx_never_raises gW ⟨[], []⟩ "w"
  constructor
  · exact (h1.2.2 (by decide)).2 "bitcoin-cli error" (by decide)
  · exact (h2.2.2 (by decide)).1 txW (by decide)

/-! ## Pure graph operations

The detectors only ever observe the fetched VALUE, never the cache (cf.
`fetch_tx_pure`), so they are embedded over the pure oracle view `fetch`. -/

/-- The value `fetch_tx` yields for a txid during a run (see
`fetch_tx_pure`). -/
def TxGraph.fetch (g : TxGraph) (t : String) : Option DecodedTx := g.chain.lookup t

/-- One resolved input of a transaction, as built by
`get_input_addresses`. -/
structure InAddr where
  address : String
  value : Int
  txid : String
  vout : Nat
deriving DecidableEq

/-- One projected output, as built by `get_output_addresses`. -/
structure OutAddr where
  address : String
  value : Int
  n : Nat
  otype : String
deriving DecidableEq

/-- Resolution of a single input inside the `get_input_addresses` loop:
coinbase inputs are skipped, a failed parent fetch is skipped, and
`parent["vout"][vin["vout"]]` raises (Python `IndexError`) when the
referenced output index is out of range. -/
def TxGraph.resolve_vin (g : TxGraph) (v : Vin) : Except Unit (Option InAddr) :=
  match v with
  | .coinbase _ => .ok none
  | .spend ptxid pvout _ =>
      match g.fetch ptxid with
      | none => .ok none
      | some parent =>
          match parent.vout.get? pvout with
          | none => .error ()
          | some vd => .ok (some ⟨vd.address, vd.value, ptxid, pvout⟩)

/-- `get_input_addresses`: empty list when the transaction itself cannot be
fetched, otherwise one entry per non-coinbase input whose funding
transaction can be fetched. -/
def TxGraph.get_input_addresses (g : TxGraph) (t : String) : Except Unit (List InAddr) :=
  match g.fetch t with
  | none => .ok []
  | some tx =>
      match mapME g.resolve_vin tx.vin with
      | .error e => .error e
      | .ok os => .ok (os.filterMap id)

/-- The total (never-raising) value of `resolve_vin`, defined only for
comparison; `resolve_vin` agrees with it whenever the referenced output
index is in range. -/
def TxGraph.resolve_pure (g : TxGraph) (v : Vin) : Option InAddr :=
  match v with
  | .coinbase _ => none
  | .spend ptxid pvout _ =>
      match g.fetch ptxid with
      | none => none
      | some parent =>
          match parent.vout.get? pvout with
          | none => none
          | some vd => some ⟨vd.address, vd.value, ptxid, pvout⟩

/-- Decodable-data well-formedness: every input of every decodable
transaction that references a decodable parent points at an existing output
of that parent (always true of data served by the node). -/
def TxGraph.WFB (g : TxGraph) : Bool :=
  g.chain.all fun e =>
    e.2.vin.all fun v =>
      match v with
      | .coinbase _ => true
      | .spend pt pv _ =>
          match g.fetch pt with
          | none => true
          | some p => pv < p.vout.length

/-- `get_output_addresses`: flat projection of a transaction's outputs. -/
def TxGraph.get_output_addresses (g : TxGraph) (t : String) : List OutAddr :=
  match g.fetch t with
  | none => []
  | some tx => tx.vout.map fun v => ⟨v.address, v.value, v.n, v.stype⟩

/-- Python `str.startswith`. -/
def strStarts (a p : String) : Bool := p.data.isPrefixOf a.data

/-- `get_script_type`: derived-address metadata wins; otherwise the
network-prefix heuristic; otherwise "unknown". -/
def TxGraph.get_script_type (g : TxGraph) (a : String) : String :=
  match g.addr_map.lookup a with
  | some meta => meta.dtype
  | none =>
      if strStarts a "tb1q" || strStarts a "bc1q" || strStarts a "bcrt1q" then "p2wpkh"
      else if strStarts a "tb1p" || strStarts a "bc1p" || strStarts a "bcrt1p" then "p2tr"
      else if strStarts a "2" || strStarts a "3" then "p2sh-p2wpkh"
      else "unknown"

/-! ## Findings -/

/-- Entry of the `txids` detail list of an address-reuse finding. -/
structure TxRef where
  txid : String
  confirmations : Nat
deriving DecidableEq

/-- Entry of the `our_addresses` detail list of a CIOH finding. -/
structure CiohAddr where
  address : String
  role : String
  valueSats : Int
deriving DecidableEq

/-- A bare (address, sats) detail pair. -/
structure AddrSats where
  address : String
  sats : Int
deriving DecidableEq

/-- Entry of the `tainted_inputs` detail list of detector 11. -/
structure TaintIn where
  address : String
  sats : Int
  source_txid : String
deriving DecidableEq

/-- Entry of the `inputs` detail list of a script-type-mixing finding. -/
structure MixIn where
  address : String
  stype : String
  ours : Bool
deriving DecidableEq

/-- UTXO reference in the age-spread finding. -/
structure UtxoRef where
  txid : String
  confirmations : Int
  amountSats : Int
deriving DecidableEq

/-- The change-detection heuristics of detector 5, in matching order. -/
inductive Reason where
  | roundPayment (paySats chSats : Int)
  | scriptTypeMatch (changeType paymentType : String)
  | internalChange
deriving DecidableEq

/-- The exchange-batch signals of detector 10, in matching order.
`hotWalletPattern` carries the `:.0f`-rounded input/median-output multiple. -/
inductive Signal where
  | highOutputCount (n : Nat)
  | uniqueRecipients (n : Nat)
  | knownExchange
  | hotWalletPattern (x : Int)
deriving DecidableEq

/-- The behavioural patterns of detector 12, in matching order. -/
inductive Pattern where
  | roundAmounts (pct : Int)
  | uniformOutputCount (k n : Nat)
  | mixedInputTypes (types : List String)
  | legacyOnly
  | rbfAlways
  | rbfNever
  | locktimeAlways
  | locktimeZero
  | steadyFeeRate (avg : ℚ)
  | changeTypeDistinct (changeTypes payTypes : List String)
  | constantInputCount (n : Nat)
deriving DecidableEq

/-- Structured `details` of a finding, one constructor per detector shape. -/
inductive Details where
  | addressReuse (address role : String) (txCount : Nat) (txids : List TxRef)
  | cioh (txid : String) (totalInputs ourInputs externalInputs : Nat)
      (ownershipPct : Int) (ourAddresses : List CiohAddr)
  | dust (status : String) (address : String) (sats : Int) (label : Option String)
      (txid : String) (vout : Option Nat)
  | dustSpending (txid : String) (dustInputs normalInputs : List AddrSats)
  | changeDetection (txid : String) (reasons : List Reason) (changeOutputs : List AddrSats)
  | consolidation (txid : String) (vout : Nat) (amountSats : Int) (nIn nOut nOurs : Nat)
  | scriptTypeMixing (txid : String) (scriptTypes : List String) (inputs : List MixIn)
  | clusterMerge (txid : String) (fundingSources : List ((String × Nat) × List String))
  | utxoAgeSpread (spreadBlocks : Int) (oldest newest : UtxoRef)
  | dormantUtxos (count threshold : Nat)
  | exchangeOrigin (txid : String) (signals : List Signal) (receivedOutputs : List AddrSats)
  | taintedMerge (txid : String) (taintedInputs : List TaintIn) (cleanInputs : List AddrSats) (taintPct : Int)
  | directTaint (txid : String) (receivedOutputs : List AddrSats)
  | behavioralFingerprint (sendTxCount : Nat) (patterns : List Pattern)
deriving DecidableEq

/-- One emitted Finding (or Warning — `warn` items have the same shape). -/
structure Finding where
  ftype : String
  severity : String
  details : Details
deriving DecidableEq

/-- The `"change"`/`"receive"` role string the source derives from the
address metadata. -/
def TxGraph.role_of (g : TxGraph) (a : String) : String :=
  match g.addr_map.lookup a with
  | some meta => if meta.internal then "change" else "receive"
  | none => "receive"

/-! ## Detector 2 — Common Input Ownership Heuristic -/

/-- Body of the detector-2 loop for one owned txid. -/
def detect_02_cioh_tx (g : TxGraph) (txid : String) : Except Unit (List Finding) :=
  match g.fetch txid with
  | none => .ok []
  | some tx =>
      if tx.vin.length < 2 then .ok []
      else
        match g.get_input_addresses txid with
        | .error e => .error e
        | .ok ias =>
            if ias.length < 2 then .ok []
            else if (ias.filter fun ia => g.is_ours ia.address).length < 2 then .ok []
            else
              .ok [⟨"CIOH",
                if (ias.filter fun ia => g.is_ours ia.address).length == ias.length
                then "CRITICAL" else "HIGH",
                Details.cioh txid ias.length
                  (ias.filter fun ia => g.is_ours ia.address).length
                  (ias.filter fun ia => !(g.is_ours ia.address)).length
                  (pyRoundDiv (100 * ((ias.filter fun ia => g.is_ours ia.address).length : Int))
                    (ias.length : Int))
                  ((ias.filter fun ia => g.is_ours ia.address).map
                    fun ia => ⟨ia.address, g.role_of ia.address, ia.value⟩)⟩]

/-- Detector 2 over all owned txids. -/
def detect_02_cioh (g : TxGraph) : Except Unit (List Finding) :=
  collectM (detect_02_cioh_tx g) g.our_txids

/-! ## Claim C1 — CIOH severity -/

/-- Spec-side predicate for the C1 claim as stated: "this input of the
transaction resolves to an owned address". -/
def vinResolvesOwned (g : TxGraph) (v : Vin) : Bool :=
  match g.resolve_pure v with
  | some ia => g.is_ours ia.address
  | none => false

/-- C1 (amended): for every finding detector 2 emits, the transaction's
resolved input list has ≥2 entries, ≥2 of them owned, and the severity is
CRITICAL iff every RESOLVED input is owned (HIGH otherwise).  (The claim as
stated quantifies over every input of the transaction; inputs that fail to
resolve are not counted by the code — see `c1_claim_counterexample`.) -/
theorem cioh_severity_amended (g : TxGraph) (t : String) (fs : List Finding)
    (h : detect_02_cioh_tx g t = .ok fs) (f : Finding) (hf : f ∈ fs) :
    ∃ ias, g.get_input_addresses t = .ok ias ∧ 2 ≤ ias.length ∧
      2 ≤ (ias.filter fun ia => g.is_ours ia.address).length ∧
      (f.severity = "CRITICAL" ↔ ∀ ia ∈ ias, g.is_ours ia.address = true) ∧
      (f.severity = "CRITICAL" ∨ f.severity = "HIGH") := by
  unfold detect_02_cioh_tx at h
  cases hft : g.fetch t with
  | none =>
      simp only [hft] at h
      cases h
      cases hf
  | some tx =>
      simp only [hft] at h
      by_cases h1 : tx.vin.length < 2
      · rw [if_pos h1] at h
        cases h
        cases hf
      · rw [if_neg h1] at h
        cases hia : g.get_input_addresses t with
        | error e =>
            simp only [hia] at h
            exact Except.noConfusion h
        | ok ias =>
            simp only [hia] at h
            by_cases h2 : ias.length < 2
            · rw [if_pos h2] at h
              cases h
              cases hf
            · rw [if_neg h2] at h
              by_cases h3 : (ias.filter fun ia => g.is_ours ia.address).length < 2
              · rw [if_pos h3] at h
                cases h
                cases hf
              · rw [if_neg h3] at h
                cases h
                rcases List.mem_singleton.mp hf with rfl
                refine ⟨ias, rfl, by omega, by omega, ?_, ?_⟩
                · show (if ((ias.filter fun ia => g.is_ours ia.address).length == ias.length) = true
                      then "CRITICAL" else "HIGH") = "CRITICAL" ↔ _
                  by_cases hcrit : (ias.filter fun ia => g.is_ours ia.address).length = ias.length
                  · rw [if_pos (beq_iff_eq.mpr hcrit)]
                    constructor
                    · intro _
                      exact (length_filter_eq_length_iff _ _).mp hcrit
                    · intro _
                      rfl
                  · rw [if_neg (fun hb => hcrit (beq_iff_eq.mp hb))]
                    constructor
                    · intro hx
                      exact absurd hx (by decide)
                    · intro hall
                      exact absurd ((length_filter_eq_length_iff _ _).mpr hall) hcrit
                · show (if ((ias.filter fun ia => g.is_ours ia.address).length == ias.length) = true
                      then "CRITICAL" else "HIGH") = "CRITICAL" ∨
                      (if ((ias.filter fun ia => g.is_ours ia.address).length == ias.length) = true
                      then "CRITICAL" else "HIGH") = "HIGH"
                  by_cases hcrit : (ias.filter fun ia => g.is_ours ia.address).length = ias.length
                  · left
                    rw [if_pos (beq_iff_eq.mpr hcrit)]
                  · right
                    rw [if_neg (fun hb => hcrit (beq_iff_eq.mp hb))]

/-- Concrete snapshot for C1/C10: owned tx "T" has three inputs, two of
which resolve to the owned addresses a1 a2; the third parent "P3" is not
decodable, so the resolved list has 2 of 3 inputs. -/
def txT : DecodedTx :=
  ⟨2, 0, 200, 1,
    [Vin.spend "P1" 0 4294967293, Vin.spend "P2" 0 4294967293, Vin.spend "P3" 0 4294967293],
    [⟨90000, 0, "ext1", "witness_v0_keyhash"⟩]⟩

def txP1 : DecodedTx :=
  ⟨2, 0, 110, 2, [Vin.coinbase 4294967295], [⟨50000, 0, "a1", "witness_v0_keyhash"⟩]⟩

def txP2 : DecodedTx :=
  ⟨2, 0, 110, 2, [Vin.coinbase 4294967295], [⟨50000, 0, "a2", "witness_v0_keyhash"⟩]⟩

def gC1 : TxGraph :=
  ⟨[("a1", ⟨"p2wpkh", false, 0⟩), ("a2", ⟨"p2wpkh", false, 1⟩)],
   [⟨"T", "a1", "send", -100000, 1, 10⟩],
   [],
   [("T", txT), ("P1", txP1), ("P2", txP2)]⟩

/-- The finding detector 2 emits for "T" in `gC1`. -/
def fC1 : Finding :=
  ⟨"CIOH", "CRITICAL",
    Details.cioh "T" 2 2 0 100 [⟨"a1", "receive", 50000⟩, ⟨"a2", "receive", 50000⟩]⟩

/-- C1 (counterexample to the claim as stated): detector 2 flags "T" as
CRITICAL although the third input of "T" does NOT resolve to an owned
address (its parent cannot be decoded) — "CRITICAL iff every input of the
flagged transaction resolves to an owned address" fails on the code, which
tests only the resolved inputs. -/
theorem c1_claim_counterexample :
    detect_02_cioh_tx gC1 "T" = .ok [fC1]
    ∧ fC1.severity = "CRITICAL"
    ∧ gC1.fetch "T" = some txT
    ∧ txT.vin.all (vinResolvesOwned gC1) = false := by
  refine ⟨by decide, by decide, by decide, by decide⟩

theorem cioh_severity_amended_witness :
    ∃ ias, gC1.get_input_addresses "T" = .ok ias ∧ 2 ≤ ias.length ∧
      2 ≤ (ias.filter fun ia => gC1.is_ours ia.address).length ∧
      (fC1.severity = "CRITICAL" ↔ ∀ ia ∈ ias, gC1.is_ours ia.address = true) ∧
      (fC1.severity = "CRITICAL" ∨ fC1.severity = "HIGH") :=
  cioh_severity_amended gC1 "T" [fC1] (by decide) fC1 (by decide)

/-! ## Detector 1 — Address reuse -/

/-- The distinct txids in which `addr` received funds, per wallet history. -/
def reuse_txids (g : TxGraph) (addr : String) : List String :=
  (((g.addr_txs addr).filter fun e => e.category == "receive").map (·.txid)).dedup

/-- The finding detector 1 emits for one reused address. -/
def reuse_finding (g : TxGraph) (addr : String) : Finding :=
  ⟨"ADDRESS_REUSE", "HIGH",
    Details.addressReuse addr (g.role_of addr) (reuse_txids g addr).length
      ((sortLe strLeB (reuse_txids g addr)).map fun t =>
        ⟨t, match g.fetch t with | some tx => tx.confirmations | none => 0⟩)⟩

/-- Detector 1: one HIGH finding per owned address with ≥2 distinct
receiving txids. -/
def detect_01_address_reuse (g : TxGraph) : List Finding :=
  (g.our_addrs.filter fun addr => 2 ≤ (reuse_txids g addr).length).map (reuse_finding g)

/-! ## Claim C6 — address-reuse exactness -/

/-- Address named by an address-reuse finding. -/
def Finding.reuse_addr : Finding → Option String
  | ⟨_, _, Details.addressReuse a _ _ _⟩ => some a
  | _ => none

theorem map_txref_txid (c : String → Nat) (l : List String) :
    ((l.map fun t => (⟨t, c t⟩ : TxRef)).map TxRef.txid) = l := by
  induction l with
  | nil => rfl
  | cons x xs ih => simp [ih]

theorem filterMap_reuse_addr (g : TxGraph) (l : List String) :
    ((l.map (reuse_finding g)).filterMap Finding.reuse_addr) = l := by
  induction l with
  | nil => rfl
  | cons x xs ih =>
      simp only [List.map_cons, List.filterMap_cons]
      rw [show Finding.reuse_addr (reuse_finding g x) = some x from rfl, ih]

/-- C6: the addresses reported by detector 1 are exactly the owned addresses
with ≥2 distinct receiving txids, each reported once; every finding is HIGH
and its detail list references exactly the receiving txids. -/
theorem address_reuse_exact (g : TxGraph) :
    ((detect_01_address_reuse g).filterMap Finding.reuse_addr
      = g.our_addrs.filter fun a => 2 ≤ (reuse_txids g a).length)
    ∧ (∀ f ∈ detect_01_address_reuse g,
        f.ftype = "ADDRESS_REUSE" ∧ f.severity = "HIGH" ∧
        ∀ a role c txl, f.details = Details.addressReuse a role c txl →
          a ∈ g.our_addrs ∧ 2 ≤ (reuse_txids g a).length ∧
          c = (reuse_txids g a).length ∧
          ∀ t : String, t ∈ txl.map TxRef.txid ↔ t ∈ reuse_txids g a)
    ∧ (∀ a : String,
        ((detect_01_address_reuse g).filterMap Finding.reuse_addr).count a ≤ 1) := by
  refine ⟨filterMap_reuse_addr g _, ?_, ?_⟩
  · intro f hf
    obtain ⟨addr, haddr, rfl⟩ := List.mem_map.mp hf
    refine ⟨rfl, rfl, ?_⟩
    intro a role c txl hdet
    have hdet' : Details.addressReuse addr (g.role_of addr) (reuse_txids g addr).length
        ((sortLe strLeB (reuse_txids g addr)).map fun t =>
          ⟨t, match g.fetch t with | some tx => tx.confirmations | none => 0⟩)
        = Details.addressReuse a role c txl := hdet
    injection hdet' with h1 h2 h3 h4
    subst h1
    subst h3
    subst h4
    have hm := List.mem_filter.mp haddr
    refine ⟨List.mem_dedup.mp (List.mem_dedup.mpr hm.1), of_decide_eq_true hm.2, rfl, ?_⟩
    intro t
    rw [map_txref_txid]
    exact mem_sortLe _ _ _
  · intro a
    unfold detect_01_address_reuse
    rw [filterMap_reuse_addr g _]
    exact List.nodup_iff_count_le_one.mp
      (List.Nodup.filter _ (List.nodup_dedup _)) a

/-- Concrete snapshot for C6: address "r1" received in two distinct txids,
"r2" in one. -/
def gC6 : TxGraph :=
  ⟨[("r1", ⟨"p2wpkh", false, 0⟩), ("r2", ⟨"p2wpkh", false, 1⟩)],
   [⟨"TA", "r1", "receive", 1000000, 3, 5⟩,
    ⟨"TB", "r1", "receive", 2000000, 2, 6⟩,
    ⟨"TC", "r2", "receive", 500000, 1, 7⟩],
   [],
   []⟩

theorem address_reuse_exact_witness :
    ((detect_01_address_reuse gC6).filterMap Finding.reuse_addr = ["r1"])
    ∧ (∀ a : String,
        ((detect_01_address_reuse gC6).filterMap Finding.reuse_addr).count a ≤ 1) :=
  ⟨by decide, (address_reuse_exact gC6).2.2⟩

/-! ## Detector 3 — Dust -/

/-- Current dust UTXOs: owned, ≤1000 sats. -/
def dust_found (g : TxGraph) : List Utxo :=
  g.utxos.filter fun u => u.amountSats ≤ 1000 && g.is_ours u.address

/-- Historical dust outputs (txid, address, sats) over the owned txids. -/
def dust_hist (g : TxGraph) : List (String × String × Int) :=
  g.our_txids.flatMap fun t =>
    (g.get_output_addresses t).filterMap fun o =>
      if o.value ≤ 1000 && g.is_ours o.address then some (t, o.address, o.value) else none

/-- First-occurrence deduplication of historical dust by (txid, address),
with an explicit `seen` accumulator as in the source. -/
def dust_keyed_dedup :
    List (String × String × Int) → List (String × String) → List (String × String × Int)
  | [], _ => []
  | h :: rest, seen =>
      if seen.contains (h.1, h.2.1) then dust_keyed_dedup rest seen
      else h :: dust_keyed_dedup rest ((h.1, h.2.1) :: seen)

/-- Finding for one unspent dust UTXO. -/
def dust_unspent_finding (u : Utxo) : Finding :=
  ⟨"DUST", if u.amountSats ≤ 546 then "HIGH" else "MEDIUM",
    Details.dust "unspent" u.address u.amountSats
      (some (if u.amountSats ≤ 546 then "STRICT_DUST" else "dust-class")) u.txid (some u.vout)⟩

/-- Finding for one historical (spent) dust output. -/
def dust_spent_finding (h : String × String × Int) : Finding :=
  ⟨"DUST", "LOW", Details.dust "spent" h.2.1 h.2.2 none h.1 none⟩

/-- Detector 3: unspent dust findings, then deduplicated historical dust
findings excluding any (txid, address) already reported unspent. -/
def detect_03_dust (g : TxGraph) : List Finding :=
  (dust_found g).map dust_unspent_finding ++
  ((dust_keyed_dedup (dust_hist g) []).filter fun h =>
      !(((dust_found g).map fun u => (u.txid, u.address)).contains (h.1, h.2.1))).map
    dust_spent_finding

/-! ## Claim C7 — dust deduplication -/

/-- The (status, txid, address) key of a dust finding. -/
def Finding.dust_key : Finding → Option (String × String × String)
  | ⟨_, _, Details.dust status _addr _ _ txid _⟩ => some (status, txid, _addr)
  | _ => none

theorem dust_keyed_dedup_nodup (l : List (String × String × Int))
    (seen : List (String × String)) :
    ((dust_keyed_dedup l seen).map fun h => (h.1, h.2.1)).Nodup ∧
    (∀ k ∈ (dust_keyed_dedup l seen).map fun h => (h.1, h.2.1), k ∉ seen) := by
  induction l generalizing seen with
  | nil => exact ⟨List.nodup_nil, by intro k hk; cases hk⟩
  | cons h rest ih =>
      by_cases hc : (seen.contains (h.1, h.2.1)) = true
      · simp only [dust_keyed_dedup, hc, if_true]
        exact ih seen
      · simp only [dust_keyed_dedup, hc, Bool.false_eq_true, if_false, List.map_cons]
        have hrec := ih ((h.1, h.2.1) :: seen)
        constructor
        · refine List.Nodup.cons ?_ hrec.1
          intro hmem
          exact hrec.2 _ hmem (by simp)
        · intro k hk
          rcases List.mem_cons.mp hk with rfl | hk'
          · intro hks
            exact hc (List.elem_iff.mpr hks)
          · intro hks
            exact hrec.2 k hk' (List.mem_cons_of_mem _ hks)

theorem filter_key_len_le_one {α : Type} (key : α → String × String) (k : String × String)
    (l : List α) (h : (l.map key).Nodup) :
    (l.filter fun x => key x == k).length ≤ 1 := by
  induction l with
  | nil => simp
  | cons x rest ih =>
      simp only [List.map_cons, List.nodup_cons] at h
      by_cases hk : (key x == k) = true
      · have hkk : key x = k := eq_of_beq hk
        have hrest : (rest.filter fun x => key x == k) = [] := by
          rw [List.filter_eq_nil_iff]
          intro y hy hyk
          exact h.1 (by
            rw [← hkk] at hyk
            have : key y = key x := eq_of_beq hyk
            rw [← this]
            exact List.mem_map.mpr ⟨y, hy, rfl⟩)
        simp [List.filter_cons, hk, hrest]
      · simp only [List.filter_cons, hk, Bool.false_eq_true, if_false]
        exact ih h.2

/-- C7: no (txid, address) pair appears both as an unspent dust finding and
as a historical (spent) dust finding, and within the historical group each
(txid, address) pair is reported at most once. -/
theorem dust_no_double_report (g : TxGraph) :
    (∀ f1 ∈ detect_03_dust g, ∀ f2 ∈ detect_03_dust g, ∀ t a,
        Finding.dust_key f1 = some ("unspent", t, a) →
        Finding.dust_key f2 = some ("spent", t, a) → False)
    ∧ ∀ t a, ((detect_03_dust g).filter fun f =>
        Finding.dust_key f == some ("spent", t, a)).length ≤ 1 := by
  constructor
  · intro f1 hf1 f2 hf2 t a hk1 hk2
    rcases List.mem_append.mp hf1 with h1 | h1
    · rcases List.mem_append.mp hf2 with h2 | h2
      · obtain ⟨u2, _, rfl⟩ := List.mem_map.mp h2
        unfold dust_unspent_finding at hk2
        simp only [Finding.dust_key] at hk2
        injection hk2 with hk2'
        injection hk2' with hs _
        exact absurd hs (by decide)
      · obtain ⟨h2e, hmem2, rfl⟩ := List.mem_map.mp h2
        obtain ⟨u1, hmem1, rfl⟩ := List.mem_map.mp h1
        unfold dust_unspent_finding at hk1
        unfold dust_spent_finding at hk2
        simp only [Finding.dust_key] at hk1 hk2
        injection hk1 with hk1'
        injection hk1' with _ hk1''
        injection hk1'' with ht1 ha1
        injection hk2 with hk2'
        injection hk2' with _ hk2''
        injection hk2'' with ht2 ha2
        have hpred := (List.mem_filter.mp hmem2).2
        rw [Bool.not_eq_eq_eq_not, Bool.not_true] at hpred
        have hin : (h2e.1, h2e.2.1)
            ∈ (dust_found g).map fun u => (u.txid, u.address) := by
          rw [ht2, ha2, ← ht1, ← ha1]
          exact List.mem_map.mpr ⟨u1, hmem1, rfl⟩
        have hcontains : (((dust_found g).map fun u => (u.txid, u.address)).contains
            (h2e.1, h2e.2.1)) = true := List.elem_iff.mpr hin
        rw [hcontains] at hpred
        cases hpred
    · obtain ⟨h1e, _, rfl⟩ := List.mem_map.mp h1
      unfold dust_spent_finding at hk1
      simp only [Finding.dust_key] at hk1
      injection hk1 with hk1'
      injection hk1' with hs _
      exact absurd hs (by decide)
  · intro t a
    unfold detect_03_dust
    rw [List.filter_append]
    have hfirst : ((dust_found g).map dust_unspent_finding).filter
        (fun f => Finding.dust_key f == some ("spent", t, a)) = [] := by
      rw [List.filter_eq_nil_iff]
      intro f hf hkey
      obtain ⟨u, _, rfl⟩ := List.mem_map.mp hf
      unfold dust_unspent_finding at hkey
      simp only [Finding.dust_key] at hkey
      have := eq_of_beq hkey
      injection this with this'
      injection this' with hs _
      exact absurd hs (by decide)
    rw [hfirst]
    simp only [List.nil_append, List.length_append, List.length_nil, Nat.zero_add]
    rw [List.filter_map]
    rw [List.length_map]
    have hcong : ((dust_keyed_dedup (dust_hist g) []).filter fun h =>
          !(((dust_found g).map fun u => (u.txid, u.address)).contains (h.1, h.2.1))).filter
        ((fun f => Finding.dust_key f == some ("spent", t, a)) ∘ dust_spent_finding)
        = ((dust_keyed_dedup (dust_hist g) []).filter fun h =>
          !(((dust_found g).map fun u => (u.txid, u.address)).contains (h.1, h.2.1))).filter
        (fun h => ((h.1, h.2.1) : String × String) == (t, a)) := by
      apply List.filter_congr
      intro h _
      show (Finding.dust_key (dust_spent_finding h) == some ("spent", t, a))
          = (((h.1, h.2.1) : String × String) == (t, a))
      by_cases heq : ((h.1, h.2.1) : String × String) = (t, a)
      · have h1 : h.1 = t := congrArg Prod.fst heq
        have h2 : h.2.1 = a := congrArg Prod.snd heq
        rw [beq_iff_eq.mpr heq]
        apply beq_iff_eq.mpr
        unfold dust_spent_finding
        simp only [Finding.dust_key]
        rw [h1, h2]
      · rw [beq_eq_false_iff_ne.mpr heq]
        apply beq_eq_false_iff_ne.mpr
        intro hcon
        unfold dust_spent_finding at hcon
        simp only [Finding.dust_key] at hcon
        injection hcon with hcon'
        injection hcon' with _ hcon''
        injection hcon'' with hct hca
        exact heq (by rw [hct, hca])
    rw [hcong]
    have hnd : (((dust_keyed_dedup (dust_hist g) []).filter fun h =>
        !(((dust_found g).map fun u => (u.txid, u.address)).contains (h.1, h.2.1))).map
          fun h => ((h.1, h.2.1) : String × String)).Nodup :=
      List.Nodup.sublist (List.Sublist.map _ (List.filter_sublist _))
        (dust_keyed_dedup_nodup (dust_hist g) []).1
    exact filter_key_len_le_one _ _ _ hnd

/-- Concrete snapshot for C7 and scenario C: a 546-sat owned unspent output,
plus the same output visible in history. -/
def txD : DecodedTx :=
  ⟨2, 0, 150, 1, [Vin.coinbase 4294967295],
   [⟨546, 0, "d1", "witness_v0_keyhash"⟩, ⟨800, 1, "d1", "witness_v0_keyhash"⟩]⟩

def gC7 : TxGraph :=
  ⟨[("d1", ⟨"p2wpkh", false, 0⟩)],
   [⟨"TD", "d1", "receive", 546, 1, 9⟩],
   [⟨"TD", 0, "d1", 546, 1⟩],
   [("TD", txD)]⟩

theorem dust_no_double_report_witness :
    detect_03_dust gC7 =
      [⟨"DUST", "HIGH", Details.dust "unspent" "d1" 546 (some "STRICT_DUST") "TD" (some 0)⟩]
    ∧ ∀ t a, ((detect_03_dust gC7).filter fun f =>
        Finding.dust_key f == some ("spent", t, a)).length ≤ 1 :=
  ⟨by decide, (dust_no_double_report gC7).2⟩

/-! ## Detector 9 — UTXO age spread -/

theorem length_insertLe {α : Type} (le : α → α → Bool) (a : α) (l : List α) :
    (insertLe le a l).length = l.length + 1 := by
  induction l with
  | nil => rfl
  | cons b bs ih =>
      by_cases h : le a b = true
      · simp [insertLe, h]
      · simp [insertLe, h, ih]

theorem length_sortLe {α : Type} (le : α → α → Bool) (l : List α) :
    (sortLe le l).length = l.length := by
  induction l with
  | nil => rfl
  | cons a as ih => simp [sortLe, length_insertLe, ih]

theorem length_filter_insertLe {α : Type} (le : α → α → Bool) (p : α → Bool) (a : α)
    (l : List α) :
    ((insertLe le a l).filter p).length = ((a :: l).filter p).length := by
  induction l with
  | nil => rfl
  | cons b bs ih =>
      by_cases h : le a b = true
      · simp [insertLe, h]
      · simp only [insertLe, h, Bool.false_eq_true, if_false, List.filter_cons]
        by_cases hb : p b = true <;> by_cases ha : p a = true <;>
          simp_all [List.filter_cons, List.length_cons]

theorem length_filter_sortLe {α : Type} (le : α → α → Bool) (p : α → Bool) (l : List α) :
    ((sortLe le l).filter p).length = (l.filter p).length := by
  induction l with
  | nil => rfl
  | cons a as ih =>
      rw [show sortLe le (a :: as) = insertLe le a (sortLe le as) from rfl,
        length_filter_insertLe]
      simp only [List.filter_cons]
      by_cases ha : p a = true <;> simp [ha, ih]

/-- Detector 9: a LOW age-spread finding when the confirmation spread of the
owned UTXOs (sorted by confirmations, descending, stable) is ≥10, and a LOW
dormant-UTXO warning, reachable only with the finding, when some owned UTXO
has ≥100 confirmations.  Returns (findings, warnings). -/
def detect_09_lookback_depth (g : TxGraph) : List Finding × List Finding :=
  if g.utxos.isEmpty then ([], [])
  else
    match sortLe (fun a b : Utxo => b.confirmations ≤ a.confirmations)
        (g.utxos.filter fun u => g.is_ours u.address) with
    | [] => ([], [])
    | [_] => ([], [])
    | oldest :: next :: rest =>
        if oldest.confirmations - ((next :: rest).getLastD next).confirmations < 10
        then ([], [])
        else
          ([⟨"UTXO_AGE_SPREAD", "LOW",
             Details.utxoAgeSpread
               (oldest.confirmations - ((next :: rest).getLastD next).confirmations)
               ⟨oldest.txid, oldest.confirmations, oldest.amountSats⟩
               ⟨((next :: rest).getLastD next).txid,
                ((next :: rest).getLastD next).confirmations,
                ((next :: rest).getLastD next).amountSats⟩⟩],
           if ((oldest :: next :: rest).filter fun u => 100 ≤ u.confirmations).isEmpty
           then []
           else [⟨"DORMANT_UTXOS", "LOW",
             Details.dormantUtxos
               ((oldest :: next :: rest).filter fun u => 100 ≤ u.confirmations).length 100⟩])

/-! ## Claim C4 — the dormant warning is NOT independent of the spread -/

/-- C4 (amended): detector 9 emits its dormant-UTXOs warning iff it also
emits the age-spread finding AND some owned UTXO has ≥100 confirmations.
The warning is therefore not independent of the ≥10-block spread condition:
the claim as stated fails, see `c4_claim_counterexample`. -/
theorem utxo_age_warning_amended (g : TxGraph) :
    (detect_09_lookback_depth g).2 ≠ [] ↔
      ((detect_09_lookback_depth g).1 ≠ [] ∧
        0 < ((g.utxos.filter fun u => g.is_ours u.address).filter
              fun u => 100 ≤ u.confirmations).length) := by
  unfold detect_09_lookback_depth
  by_cases he : g.utxos.isEmpty = true
  · rw [if_pos he]
    simp
  · rw [if_neg he]
    have hlen := length_sortLe (fun a b : Utxo => b.confirmations ≤ a.confirmations)
      (g.utxos.filter fun u => g.is_ours u.address)
    have hfl := length_filter_sortLe (fun a b : Utxo => b.confirmations ≤ a.confirmations)
      (fun u => 100 ≤ u.confirmations) (g.utxos.filter fun u => g.is_ours u.address)
    cases hs : sortLe (fun a b : Utxo => b.confirmations ≤ a.confirmations)
        (g.utxos.filter fun u => g.is_ours u.address) with
    | nil =>
        rw [hs] at hfl
        simp only [List.filter_nil, List.length_nil] at hfl
        simp [← hfl]
    | cons oldest tl =>
        cases tl with
        | nil => simp
        | cons next rest =>
            rw [hs] at hfl
            dsimp only
            by_cases hsp : oldest.confirmations
                - ((next :: rest).getLastD next).confirmations < 10
            · rw [if_pos hsp]
              simp
            · rw [if_neg hsp]
              by_cases hemp :
                  (((oldest :: next :: rest).filter fun u => 100 ≤ u.confirmations).isEmpty)
                  = true
              · constructor
                · intro hw
                  exact absurd (by rw [if_pos hemp]) hw
                · intro hw
                  rw [← hfl] at hw
                  rw [List.isEmpty_iff] at hemp
                  rw [hemp] at hw
                  simp at hw
              · constructor
                · intro _
                  refine ⟨by simp, ?_⟩
                  rw [← hfl]
                  rw [List.isEmpty_iff] at hemp
                  exact List.length_pos.mpr hemp
                · intro _
                  rw [if_neg hemp]
                  simp

/-- Concrete snapshot for C4: two owned UTXOs, both with 150 confirmations
(spread 0, dormant count 2). -/
def gC4 : TxGraph :=
  ⟨[("a9", ⟨"p2wpkh", false, 0⟩)],
   [⟨"U1", "a9", "receive", 5000000, 150, 3⟩],
   [⟨"U1", 0, "a9", 5000000, 150⟩, ⟨"U2", 1, "a9", 7000000, 150⟩],
   []⟩

/-- C4 (counterexample to the claim as stated): the count of owned UTXOs
with ≥100 confirmations is 2 (nonzero), yet detector 9 emits NO warning (and
no finding) because the confirmation spread is 0 < 10 — the warning is not
emitted "independently" of the spread condition. -/
theorem c4_claim_counterexample :
    detect_09_lookback_depth gC4 = ([], [])
    ∧ ((gC4.utxos.filter fun u => gC4.is_ours u.address).filter
        fun u => 100 ≤ u.confirmations).length = 2 := by
  refine ⟨by decide, by decide⟩

/-! ## Detector 5 — Change detection -/

/-- Round amount: multiple of 1e5 or 1e6 sats. -/
def round_sats (s : Int) : Bool := s % 100000 == 0 || s % 1000000 == 0

/-- All matched change-detection heuristics, in the source's evaluation
order: per owned output × external output, heuristic 1 (round payment vs
non-round change), heuristic 2 (change script type among input types and
different from the payment's), heuristic 3 (internal derivation branch). -/
def matched_reasons (g : TxGraph) (ourIn : List InAddr) (ourOuts extOuts : List OutAddr) :
    List Reason :=
  ourOuts.flatMap fun change =>
    extOuts.flatMap fun payment =>
      (if round_sats payment.value && !(round_sats change.value)
       then [Reason.roundPayment payment.value change.value] else [])
      ++ (if ((ourIn.map fun ia => g.get_script_type ia.address).contains
              (g.get_script_type change.address))
            && !(change.otype == payment.otype)
          then [Reason.scriptTypeMatch change.otype payment.otype] else [])
      ++ (match g.addr_map.lookup change.address with
          | some meta => if meta.internal then [Reason.internalChange] else []
          | none => [])

/-- Body of the detector-5 loop for one owned txid.  The emitted reasons
list is truncated to the first 6 (`problems[:6]` in the source). -/
def detect_05_change_detection_tx (g : TxGraph) (txid : String) : Except Unit (List Finding) :=
  match g.fetch txid with
  | none => .ok []
  | some _tx =>
      match g.get_input_addresses txid with
      | .error e => .error e
      | .ok ias =>
          if (g.get_output_addresses txid).length < 2 then .ok []
          else if (ias.filter fun ia => g.is_ours ia.address).isEmpty then .ok []
          else if ((g.get_output_addresses txid).filter fun o => g.is_ours o.address).isEmpty
              || ((g.get_output_addresses txid).filter fun o => !(g.is_ours o.address)).isEmpty
          then .ok []
          else if (matched_reasons g (ias.filter fun ia => g.is_ours ia.address)
              ((g.get_output_addresses txid).filter fun o => g.is_ours o.address)
              ((g.get_output_addresses txid).filter fun o => !(g.is_ours o.address))).isEmpty
          then .ok []
          else .ok [⟨"CHANGE_DETECTION", "MEDIUM",
            Details.changeDetection txid
              ((matched_reasons g (ias.filter fun ia => g.is_ours ia.address)
                ((g.get_output_addresses txid).filter fun o => g.is_ours o.address)
                ((g.get_output_addresses txid).filter fun o => !(g.is_ours o.address))).take 6)
              (((g.get_output_addresses txid).filter fun o => g.is_ours o.address).map
                fun co => ⟨co.address, co.value⟩)⟩]

/-! ## Claim C3 — the reasons list truncates at six -/

/-- C3 (amended): every Change Detection finding's reasons list is the first
SIX matched heuristic reasons; when at most six heuristics match, no
matched reason is omitted.  (The claim as stated — no matched reason is
ever omitted — fails when more than six match: `c3_claim_counterexample`.) -/
theorem change_reasons_amended (g : TxGraph) (t : String) (fs : List Finding)
    (h : detect_05_change_detection_tx g t = .ok fs) (f : Finding) (hf : f ∈ fs)
    (t' : String) (rs : List Reason) (outs : List AddrSats)
    (hdet : f.details = Details.changeDetection t' rs outs) :
    ∃ ias, g.get_input_addresses t = .ok ias ∧
      rs = (matched_reasons g (ias.filter fun ia => g.is_ours ia.address)
          ((g.get_output_addresses t).filter fun o => g.is_ours o.address)
          ((g.get_output_addresses t).filter fun o => !(g.is_ours o.address))).take 6 ∧
      ((matched_reasons g (ias.filter fun ia => g.is_ours ia.address)
          ((g.get_output_addresses t).filter fun o => g.is_ours o.address)
          ((g.get_output_addresses t).filter fun o => !(g.is_ours o.address))).length ≤ 6 →
        ∀ r, r ∈ matched_reasons g (ias.filter fun ia => g.is_ours ia.address)
            ((g.get_output_addresses t).filter fun o => g.is_ours o.address)
            ((g.get_output_addresses t).filter fun o => !(g.is_ours o.address)) ↔ r ∈ rs) := by
  unfold detect_05_change_detection_tx at h
  cases hft : g.fetch t with
  | none =>
      simp only [hft] at h
      cases h
      cases hf
  | some tx =>
      simp only [hft] at h
      cases hia : g.get_input_addresses t with
      | error e =>
          simp only [hia] at h
          exact Except.noConfusion h
      | ok ias =>
          simp only [hia] at h
          by_cases h1 : (g.get_output_addresses t).length < 2
          · rw [if_pos h1] at h
            cases h
            cases hf
          · rw [if_neg h1] at h
            by_cases h2 : ((ias.filter fun ia => g.is_ours ia.address).isEmpty) = true
            · rw [if_pos h2] at h
              cases h
              cases hf
            · rw [if_neg h2] at h
              by_cases h3 :
                  ((((g.get_output_addresses t).filter fun o => g.is_ours o.address).isEmpty)
                  || (((g.get_output_addresses t).filter fun o =>
                        !(g.is_ours o.address)).isEmpty)) = true
              · rw [if_pos h3] at h
                cases h
                cases hf
              · rw [if_neg h3] at h
                by_cases h4 : ((matched_reasons g (ias.filter fun ia => g.is_ours ia.address)
                    ((g.get_output_addresses t).filter fun o => g.is_ours o.address)
                    ((g.get_output_addresses t).filter fun o =>
                      !(g.is_ours o.address))).isEmpty) = true
                · rw [if_pos h4] at h
                  cases h
                  cases hf
                · rw [if_neg h4] at h
                  cases h
                  rcases List.mem_singleton.mp hf with rfl
                  refine ⟨ias, rfl, ?_, ?_⟩
                  · injection hdet with _ hrs _
                    exact hrs.symm
                  · intro hlen r
                    injection hdet with _ hrs _
                    rw [← hrs, List.take_of_length_le hlen]

/-- Concrete snapshot for C3: a send with one owned input, one non-round
owned change output and SEVEN round external outputs — heuristic 1 matches
seven times with distinct reasons, but only six survive `problems[:6]`. -/
def txS : DecodedTx :=
  ⟨2, 0, 400, 1, [Vin.spend "F" 0 4294967293],
   [⟨4998231, 0, "c1", "witness_v0_keyhash"⟩,
    ⟨100000, 1, "e1", "witness_v0_keyhash"⟩,
    ⟨200000, 2, "e2", "witness_v0_keyhash"⟩,
    ⟨300000, 3, "e3", "witness_v0_keyhash"⟩,
    ⟨400000, 4, "e4", "witness_v0_keyhash"⟩,
    ⟨500000, 5, "e5", "witness_v0_keyhash"⟩,
    ⟨600000, 6, "e6", "witness_v0_keyhash"⟩,
    ⟨700000, 7, "e7", "witness_v0_keyhash"⟩]⟩

def txF : DecodedTx :=
  ⟨2, 0, 110, 3, [Vin.coinbase 4294967295], [⟨8000000, 0, "m1", "witness_v0_keyhash"⟩]⟩

def gC3 : TxGraph :=
  ⟨[("m1", ⟨"p2wpkh", false, 0⟩), ("c1", ⟨"p2wpkh", false, 1⟩)],
   [⟨"S", "m1", "send", -8000000, 1, 11⟩],
   [],
   [("S", txS), ("F", txF)]⟩

/-- Reasons list of a change-detection finding. -/
def Finding.change_reasons : Finding → List Reason
  | ⟨_, _, Details.changeDetection _ rs _⟩ => rs
  | _ => []

/-- The finding detector 5 emits for "S" in `gC3`. -/
def fC3 : Finding :=
  ⟨"CHANGE_DETECTION", "MEDIUM",
    Details.changeDetection "S"
      [Reason.roundPayment 100000 4998231, Reason.roundPayment 200000 4998231,
       Reason.roundPayment 300000 4998231, Reason.roundPayment 400000 4998231,
       Reason.roundPayment 500000 4998231, Reason.roundPayment 600000 4998231]
      [⟨"c1", 4998231⟩]⟩

/-- C3 (counterexample to the claim as stated): for "S" in `gC3` seven
distinct change-detection reasons match, but the emitted finding lists only
the first six — the round-payment reason for the 700000-sat output is a
matched reason omitted from the report. -/
theorem c3_claim_counterexample :
    detect_05_change_detection_tx gC3 "S" = .ok [fC3]
    ∧ gC3.get_input_addresses "S" = .ok [⟨"m1", 8000000, "F", 0⟩]
    ∧ Reason.roundPayment 700000 4998231 ∈ matched_reasons gC3
        ([(⟨"m1", 8000000, "F", 0⟩ : InAddr)].filter fun ia => gC3.is_ours ia.address)
        ((gC3.get_output_addresses "S").filter fun o => gC3.is_ours o.address)
        ((gC3.get_output_addresses "S").filter fun o => !(gC3.is_ours o.address))
    ∧ Reason.roundPayment 700000 4998231 ∉ fC3.change_reasons := by
  refine ⟨by decide, by decide, by decide, by decide⟩

theorem change_reasons_amended_witness :
    ∃ ias, gC3.get_input_addresses "S" = .ok ias ∧
      [Reason.roundPayment 100000 4998231, Reason.roundPayment 200000 4998231,
       Reason.roundPayment 300000 4998231, Reason.roundPayment 400000 4998231,
       Reason.roundPayment 500000 4998231, Reason.roundPayment 600000 4998231]
        = (matched_reasons gC3 (ias.filter fun ia => gC3.is_ours ia.address)
            ((gC3.get_output_addresses "S").filter fun o => gC3.is_ours o.address)
            ((gC3.get_output_addresses "S").filter fun o => !(gC3.is_ours o.address))).take 6 ∧
      ((matched_reasons gC3 (ias.filter fun ia => gC3.is_ours ia.address)
          ((gC3.get_output_addresses "S").filter fun o => gC3.is_ours o.address)
          ((gC3.get_output_addresses "S").filter fun o => !(gC3.is_ours o.address))).length ≤ 6 →
        ∀ r, r ∈ matched_reasons gC3 (ias.filter fun ia => gC3.is_ours ia.address)
            ((gC3.get_output_addresses "S").filter fun o => gC3.is_ours o.address)
            ((gC3.get_output_addresses "S").filter fun o => !(gC3.is_ours o.address)) ↔
          r ∈ [Reason.roundPayment 100000 4998231, Reason.roundPayment 200000 4998231,
               Reason.roundPayment 300000 4998231, Reason.roundPayment 400000 4998231,
               Reason.roundPayment 500000 4998231, Reason.roundPayment 600000 4998231]) :=
  change_reasons_amended gC3 "S" [fC3] (by decide) fC3 (by decide) "S"
    [Reason.roundPayment 100000 4998231, Reason.roundPayment 200000 4998231,
     Reason.roundPayment 300000 4998231, Reason.roundPayment 400000 4998231,
     Reason.roundPayment 500000 4998231, Reason.roundPayment 600000 4998231]
    [⟨"c1", 4998231⟩] (by decide)

/-! ## Detector 8 — Cluster merge -/

/-- The dict key under which the source files one owned input's one-hop
funding source: the first 16 characters of the parent txid, plus the spent
output index (the source formats these into the string
`f"{txid[:16]}:{vout}"`; txids are hex, so the pair is equivalent). -/
def src_key (ia : InAddr) : String × Nat := (ia.txid.take 16, ia.vout)

/-- The grandparent-id set of one parent transaction: "coinbase" markers and
16-character grandparent txid PREFIXES (`p_vin["txid"][:16]` in the
source). -/
def gp_ids (p : DecodedTx) : List String :=
  (p.vin.map fun v => match v with
    | Vin.coinbase _ => "coinbase"
    | Vin.spend ptxid _ _ => ptxid.take 16).dedup

/-- Python dict assignment: update in place if the key exists, else append. -/
def assocUpd {K V : Type} [BEq K] : List (K × V) → K → V → List (K × V)
  | [], k, v => [(k, v)]
  | e :: rest, k, v => if e.1 == k then (k, v) :: rest else e :: assocUpd rest k v

/-- One step of the `funding_sources` accumulation. -/
def fs_step (g : TxGraph) (m : List ((String × Nat) × List String)) (ia : InAddr) :
    List ((String × Nat) × List String) :=
  match g.fetch ia.txid with
  | none => m
  | some p => assocUpd m (src_key ia) (gp_ids p)

/-- The `funding_sources` dict of detector 8: one-hop source key ↦
grandparent-id set, accumulated over the owned inputs. -/
def funding_sources (g : TxGraph) (ownedIn : List InAddr) :
    List ((String × Nat) × List String) :=
  ownedIn.foldl (fs_step g) []

/-- Python `set.isdisjoint`. -/
def disjointB (a b : List String) : Bool := a.all fun x => !(b.contains x)

/-- The double loop `for i … for j in range(i+1, …)` that looks for any
disjoint pair of grandparent-id sets. -/
def any_disjoint_pair : List (List String) → Bool
  | [] => false
  | s :: rest => rest.any (fun s2 => disjointB s s2) || any_disjoint_pair rest

/-- Body of the detector-8 loop for one owned txid. -/
def detect_08_cluster_merge_tx (g : TxGraph) (txid : String) : Except Unit (List Finding) :=
  match g.get_input_addresses txid with
  | .error e => .error e
  | .ok ias =>
      if ias.length < 2 then .ok []
      else if (ias.filter fun ia => g.is_ours ia.address).length < 2 then .ok []
      else if 2 ≤ (funding_sources g (ias.filter fun ia => g.is_ours ia.address)).length
          && any_disjoint_pair
            ((funding_sources g (ias.filter fun ia => g.is_ours ia.address)).map Prod.snd)
      then .ok [⟨"CLUSTER_MERGE", "HIGH",
        Details.clusterMerge txid
          ((funding_sources g (ias.filter fun ia => g.is_ours ia.address)).map
            fun e => (e.1, sortLe strLeB e.2))⟩]
      else .ok []

/-! ## Claim C5 — cluster merge fires on disjoint grandparent-PREFIX sets -/

theorem lookup_mem' {κ β : Type} [BEq κ] [LawfulBEq κ] (l : List (κ × β)) (k : κ) (v : β)
    (h : l.lookup k = some v) : (k, v) ∈ l := by
  induction l with
  | nil => cases h
  | cons e rest ih =>
      rcases e with ⟨k', v'⟩
      by_cases hk : k = k'
      · subst hk
        simp only [List.lookup, beq_self_eq_true] at h
        cases h
        simp
      · have hb : (k == k') = false := beq_eq_false_iff_ne.mpr hk
        simp only [List.lookup, hb] at h
        exact List.mem_cons_of_mem _ (ih h)

theorem assocUpd_mem {K V : Type} [BEq K] (m : List (K × V)) (k : K) (v : V)
    (e : K × V) (h : e ∈ assocUpd m k v) : e ∈ m ∨ e = (k, v) := by
  induction m with
  | nil =>
      simp only [assocUpd, List.mem_singleton] at h
      exact Or.inr h
  | cons e0 rest ih =>
      by_cases hk : (e0.1 == k) = true
      · simp only [assocUpd, hk, if_true] at h
        rcases List.mem_cons.mp h with rfl | hmem
        · exact Or.inr rfl
        · exact Or.inl (List.mem_cons_of_mem _ hmem)
      · simp only [assocUpd, hk, Bool.false_eq_true, if_false] at h
        rcases List.mem_cons.mp h with rfl | hmem
        · exact Or.inl (List.mem_cons_self _ _)
        · rcases ih hmem with h' | h'
          · exact Or.inl (List.mem_cons_of_mem _ h')
          · exact Or.inr h'

theorem assocUpd_lookup_self {K V : Type} [BEq K] [LawfulBEq K]
    (m : List (K × V)) (k : K) (v : V) : (assocUpd m k v).lookup k = some v := by
  induction m with
  | nil => simp [assocUpd, List.lookup]
  | cons e0 rest ih =>
      by_cases hk : (e0.1 == k) = true
      · simp [assocUpd, hk, List.lookup]
      · simp only [assocUpd, hk, Bool.false_eq_true, if_false, List.lookup]
        have : (k == e0.1) = false := by
          rw [beq_eq_false_iff_ne]
          intro hc
          rw [hc] at hk
          exact hk (beq_self_eq_true _)
        rw [this]
        exact ih

theorem assocUpd_lookup_ne {K V : Type} [BEq K] [LawfulBEq K]
    (m : List (K × V)) (k k' : K) (v : V) (hne : k' ≠ k) :
    (assocUpd m k v).lookup k' = m.lookup k' := by
  induction m with
  | nil =>
      simp only [assocUpd, List.lookup, beq_eq_false_iff_ne.mpr hne]
  | cons e0 rest ih =>
      by_cases hk : (e0.1 == k) = true
      · have he0 : e0.1 = k := eq_of_beq hk
        have hb2 : (k' == e0.1) = false :=
          beq_eq_false_iff_ne.mpr (fun hc => hne (hc.trans he0))
        simp only [assocUpd, hk, if_true, List.lookup,
          beq_eq_false_iff_ne.mpr hne, hb2]
      · simp only [assocUpd, hk, Bool.false_eq_true, if_false, List.lookup]
        cases hkk : (k' == e0.1) with
        | true => rfl
        | false => exact ih

theorem funding_sources_mem (g : TxGraph) (l : List InAddr) :
    ∀ (m : List ((String × Nat) × List String)) e, e ∈ l.foldl (fs_step g) m →
      e ∈ m ∨ ∃ ia ∈ l, ∃ p, g.fetch ia.txid = some p ∧ e = (src_key ia, gp_ids p) := by
  induction l with
  | nil => exact fun m e h => Or.inl h
  | cons ia0 rest ih =>
      intro m e h
      rcases ih (fs_step g m ia0) e h with h' | ⟨ia, hia, p, hp, he⟩
      · unfold fs_step at h'
        cases hp0 : g.fetch ia0.txid with
        | none =>
            rw [hp0] at h'
            exact Or.inl h'
        | some p0 =>
            rw [hp0] at h'
            rcases assocUpd_mem _ _ _ _ h' with hm | he
            · exact Or.inl hm
            · exact Or.inr ⟨ia0, List.mem_cons_self _ _, p0, hp0, he⟩
      · exact Or.inr ⟨ia, List.mem_cons_of_mem _ hia, p, hp, he⟩

theorem funding_sources_lookup_preserve (g : TxGraph) (l : List InAddr)
    (k : String × Nat) (v : List String)
    (hv : ∀ ia ∈ l, ∀ p, g.fetch ia.txid = some p → src_key ia = k → gp_ids p = v) :
    ∀ m, m.lookup k = some v → (l.foldl (fs_step g) m).lookup k = some v := by
  induction l with
  | nil => exact fun m hm => hm
  | cons ia0 rest ih =>
      intro m hm
      refine ih (fun ia hia p hp hk => hv ia (List.mem_cons_of_mem _ hia) p hp hk) _ ?_
      cases hp0 : g.fetch ia0.txid with
      | none =>
          show ((match g.fetch ia0.txid with
            | none => m
            | some p => assocUpd m (src_key ia0) (gp_ids p)) : List _).lookup k = some v
          rw [hp0]
          exact hm
      | some p0 =>
          show ((match g.fetch ia0.txid with
            | none => m
            | some p => assocUpd m (src_key ia0) (gp_ids p)) : List _).lookup k = some v
          rw [hp0]
          show (assocUpd m (src_key ia0) (gp_ids p0)).lookup k = some v
          by_cases hk : src_key ia0 = k
          · rw [hk, hv ia0 (List.mem_cons_self _ _) p0 hp0 hk]
            exact assocUpd_lookup_self _ _ _
          · rw [assocUpd_lookup_ne m (src_key ia0) k (gp_ids p0) (fun hc => hk hc.symm)]
            exact hm

theorem funding_sources_lookup (g : TxGraph) (l : List InAddr) (ia : InAddr)
    (p : DecodedTx) (hia : ia ∈ l) (hp : g.fetch ia.txid = some p)
    (hdet : ∀ ia' ∈ l, ∀ p', g.fetch ia'.txid = some p' →
      src_key ia' = src_key ia → gp_ids p' = gp_ids p) :
    ∀ m, (l.foldl (fs_step g) m).lookup (src_key ia) = some (gp_ids p) := by
  induction l with
  | nil => cases hia
  | cons ia0 rest ih =>
      intro m
      rcases List.mem_cons.mp hia with rfl | hmem
      · show (rest.foldl (fs_step g) (fs_step g m ia)).lookup (src_key ia) = some (gp_ids p)
        refine funding_sources_lookup_preserve g rest (src_key ia) (gp_ids p)
          (fun ia' hia' p' hp' hk => hdet ia' (List.mem_cons_of_mem _ hia') p' hp' hk) _ ?_
        show ((match g.fetch ia.txid with
          | none => m
          | some p => assocUpd m (src_key ia) (gp_ids p)) : List _).lookup (src_key ia)
          = some (gp_ids p)
        rw [hp]
        exact assocUpd_lookup_self _ _ _
      · show (rest.foldl (fs_step g) (fs_step g m ia0)).lookup (src_key ia) = some (gp_ids p)
        exact ih hmem
          (fun ia' hia' p' hp' hk => hdet ia' (List.mem_cons_of_mem _ hia') p' hp' hk)
          (fs_step g m ia0)

theorem two_mem_le_length {α : Type} (l : List α) (a b : α) (ha : a ∈ l) (hb : b ∈ l)
    (hne : a ≠ b) : 2 ≤ l.length := by
  cases l with
  | nil => cases ha
  | cons x rest =>
      cases rest with
      | nil =>
          rw [List.mem_singleton] at ha hb
          exact absurd (ha.trans hb.symm) hne
      | cons y rest2 => simp [List.length_cons]

theorem pair_sublist_of_mem {α : Type} (l : List α) (a b : α) (ha : a ∈ l) (hb : b ∈ l)
    (hne : a ≠ b) : [a, b].Sublist l ∨ [b, a].Sublist l := by
  induction l with
  | nil => cases ha
  | cons x rest ih =>
      rcases List.mem_cons.mp ha with rfl | ha'
      · rcases List.mem_cons.mp hb with rfl | hb'
        · exact absurd rfl hne
        · exact Or.inl (List.Sublist.cons₂ _ (List.singleton_sublist.mpr hb'))
      · rcases List.mem_cons.mp hb with rfl | hb'
        · exact Or.inr (List.Sublist.cons₂ _ (List.singleton_sublist.mpr ha'))
        · rcases ih ha' hb' with h | h
          · exact Or.inl (List.Sublist.cons _ h)
          · exact Or.inr (List.Sublist.cons _ h)

theorem any_disjoint_pair_true (L : List (List String)) (h : any_disjoint_pair L = true) :
    ∃ a ∈ L, ∃ b ∈ L, disjointB a b = true := by
  induction L with
  | nil => cases h
  | cons s rest ih =>
      unfold any_disjoint_pair at h
      rw [Bool.or_eq_true] at h
      rcases h with h' | h'
      · obtain ⟨b, hb, hd⟩ := List.any_eq_true.mp h'
        exact ⟨s, List.mem_cons_self _ _, b, List.mem_cons_of_mem _ hb, hd⟩
      · obtain ⟨a, ha, b, hb, hd⟩ := ih h'
        exact ⟨a, List.mem_cons_of_mem _ ha, b, List.mem_cons_of_mem _ hb, hd⟩

theorem any_disjoint_pair_of_sublist (L : List (List String)) (a b : List String)
    (hsub : [a, b].Sublist L) (hd : disjointB a b = true) : any_disjoint_pair L = true := by
  induction L with
  | nil => cases hsub
  | cons s rest ih =>
      cases hsub with
      | cons _ hsub' =>
          unfold any_disjoint_pair
          rw [ih hsub', Bool.or_true]
      | cons₂ _ hsub' =>
          unfold any_disjoint_pair
          have hb : b ∈ rest := List.singleton_sublist.mp hsub'
          rw [List.any_eq_true.mpr ⟨b, hb, hd⟩, Bool.true_or]

theorem disjointB_iff (a b : List String) : disjointB a b = true ↔ ∀ x ∈ a, x ∉ b := by
  unfold disjointB
  rw [List.all_eq_true]
  constructor
  · intro h x hx hxb
    have hc := h x hx
    have hcontains : b.contains x = true := List.elem_iff.mpr hxb
    rw [hcontains] at hc
    simp at hc
  · intro h x hx
    have : b.contains x = false := by
      by_cases hc : b.contains x = true
      · exact absurd (List.elem_iff.mp hc) (h x hx)
      · exact Bool.eq_false_iff.mpr hc
    rw [this]
    rfl

theorem disjointB_symm (a b : List String) (h : disjointB a b = true) :
    disjointB b a = true :=
  (disjointB_iff b a).mpr fun x hxb hxa => ((disjointB_iff a b).mp h x hxa) hxb

theorem disjointB_self_false (S : List String) (h : S ≠ []) : disjointB S S = false := by
  cases S with
  | nil => exact absurd rfl h
  | cons x xs =>
      by_cases hd : disjointB (x :: xs) (x :: xs) = true
      · exact (((disjointB_iff _ _).mp hd x (List.mem_cons_self _ _))
          (List.mem_cons_self _ _)).elim
      · exact Bool.eq_false_iff.mpr hd

theorem dedup_ne_nil {α : Type} [DecidableEq α] (l : List α) (h : l ≠ []) :
    l.dedup ≠ [] := by
  cases l with
  | nil => exact absurd rfl h
  | cons x xs =>
      intro hc
      have hm : x ∈ (x :: xs).dedup := List.mem_dedup.mpr (List.mem_cons_self _ _)
      rw [hc] at hm
      cases hm

theorem gp_ids_ne_nil (p : DecodedTx) (h : p.vin ≠ []) : gp_ids p ≠ [] := by
  unfold gp_ids
  apply dedup_ne_nil
  cases hv : p.vin with
  | nil => exact absurd hv h
  | cons v vs => simp

/-- Every decodable transaction has at least one input — true of all real
decoded transactions. -/
def nonempty_vins (g : TxGraph) : Prop := ∀ e ∈ g.chain, e.2.vin ≠ []

/-- No two distinct decodable txids share their first 16 characters — true
with overwhelming probability of real 64-hex-char txids. -/
def src16_inj (g : TxGraph) : Prop :=
  ∀ e1 ∈ g.chain, ∀ e2 ∈ g.chain, e1.1.take 16 = e2.1.take 16 → e1.1 = e2.1

set_option maxHeartbeats 1000000

/-- C5 (amended): under the two data well-formedness assumptions, detector 8
emits its HIGH finding for an owned transaction with ≥2 owned resolved
inputs iff two of those owned inputs trace one hop back to grandparent-id
sets that are disjoint — where, unlike the claim as stated, a grandparent id
is the FIRST 16 CHARACTERS of the grandparent txid (or "coinbase"), as the
source truncates (`[:16]`); see `c5_claim_counterexample`. -/
theorem cluster_merge_amended (g : TxGraph) (h1 : nonempty_vins g) (h2 : src16_inj g)
    (t : String) (fs : List Finding) (h : detect_08_cluster_merge_tx g t = .ok fs) :
    (fs ≠ [] ↔ ∃ ias, g.get_input_addresses t = .ok ias ∧
      2 ≤ ias.length ∧ 2 ≤ (ias.filter fun ia => g.is_ours ia.address).length ∧
      ∃ ia1 ∈ ias.filter fun ia => g.is_ours ia.address,
      ∃ ia2 ∈ ias.filter fun ia => g.is_ours ia.address,
      ∃ p1 p2, g.fetch ia1.txid = some p1 ∧ g.fetch ia2.txid = some p2 ∧
        disjointB (gp_ids p1) (gp_ids p2) = true)
    ∧ ∀ f ∈ fs, f.ftype = "CLUSTER_MERGE" ∧ f.severity = "HIGH" := by
  unfold detect_08_cluster_merge_tx at h
  cases hia : g.get_input_addresses t with
  | error e =>
      simp only [hia] at h
      exact Except.noConfusion h
  | ok ias =>
      simp only [hia] at h
      by_cases hl2 : ias.length < 2
      · rw [if_pos hl2] at h
        cases h
        refine ⟨⟨fun hne => absurd rfl hne, ?_⟩, fun f hf => absurd hf (by simp)⟩
        rintro ⟨ias', hias', hlen, -⟩
        injection hias' with he
        subst he
        omega
      · rw [if_neg hl2] at h
        by_cases ho2 : (ias.filter fun ia => g.is_ours ia.address).length < 2
        · rw [if_pos ho2] at h
          cases h
          refine ⟨⟨fun hne => absurd rfl hne, ?_⟩, fun f hf => absurd hf (by simp)⟩
          rintro ⟨ias', hias', -, hown, -⟩
          injection hias' with he
          subst he
          omega
        · rw [if_neg ho2] at h
          by_cases hcond : (2 ≤ (funding_sources g
                (ias.filter fun ia => g.is_ours ia.address)).length
              && any_disjoint_pair ((funding_sources g
                (ias.filter fun ia => g.is_ours ia.address)).map Prod.snd)) = true
          · rw [if_pos hcond] at h
            cases h
            constructor
            · constructor
              · intro _
                have hand := hcond
                rw [Bool.and_eq_true] at hand
                obtain ⟨v1, hv1, v2, hv2, hd⟩ := any_disjoint_pair_true _ hand.2
                obtain ⟨e1, he1, rfl⟩ := List.mem_map.mp hv1
                obtain ⟨e2, he2, rfl⟩ := List.mem_map.mp hv2
                rcases funding_sources_mem g _ [] e1 he1 with h0 | ⟨ia1, hia1, p1, hp1, he1'⟩
                · cases h0
                rcases funding_sources_mem g _ [] e2 he2 with h0 | ⟨ia2, hia2, p2, hp2, he2'⟩
                · cases h0
                refine ⟨ias, rfl, by omega, by omega,
                  ia1, hia1, ia2, hia2, p1, p2, hp1, hp2, ?_⟩
                rw [he1', he2'] at hd
                exact hd
              · intro _
                simp
            · intro f hf
              rcases List.mem_singleton.mp hf with rfl
              exact ⟨rfl, rfl⟩
          · rw [if_neg hcond] at h
            cases h
            refine ⟨⟨fun hne => absurd rfl hne, ?_⟩, fun f hf => absurd hf (by simp)⟩
            rintro ⟨ias', hias', -, -, ia1, hia1, ia2, hia2, p1, p2, hp1, hp2, hdj⟩
            injection hias' with he
            subst he
            have hm1 : (ia1.txid, p1) ∈ g.chain := lookup_mem _ _ _ hp1
            have hm2 : (ia2.txid, p2) ∈ g.chain := lookup_mem _ _ _ hp2
            have hgp1 : gp_ids p1 ≠ [] := gp_ids_ne_nil p1 (h1 (ia1.txid, p1) hm1)
            have hgp2 : gp_ids p2 ≠ [] := gp_ids_ne_nil p2 (h1 (ia2.txid, p2) hm2)
            have hpp : p1 ≠ p2 := by
              intro he
              rw [he] at hdj
              rw [disjointB_self_false _ hgp2] at hdj
              cases hdj
            have htx : ia1.txid ≠ ia2.txid := by
              intro he
              rw [he] at hp1
              exact hpp (Option.some.inj (hp1.symm.trans hp2))
            have hkey : src_key ia1 ≠ src_key ia2 := by
              intro hk
              have h16 := congrArg Prod.fst hk
              simp only [src_key] at h16
              exact htx (h2 (ia1.txid, p1) hm1 (ia2.txid, p2) hm2 h16)
            have hdet1 : ∀ ia' ∈ ias.filter fun ia => g.is_ours ia.address,
                ∀ p', g.fetch ia'.txid = some p' → src_key ia' = src_key ia1 →
                  gp_ids p' = gp_ids p1 := by
              intro ia' _ p' hp' hk
              have hm' : (ia'.txid, p') ∈ g.chain := lookup_mem _ _ _ hp'
              have h16 := congrArg Prod.fst hk
              simp only [src_key] at h16
              have he' : ia'.txid = ia1.txid :=
                h2 (ia'.txid, p') hm' (ia1.txid, p1) hm1 h16
              have h3 : g.fetch ia1.txid = some p' := he' ▸ hp'
              have hpe : p' = p1 := Option.some.inj (h3.symm.trans hp1)
              exact congrArg gp_ids hpe
            have hdet2 : ∀ ia' ∈ ias.filter fun ia => g.is_ours ia.address,
                ∀ p', g.fetch ia'.txid = some p' → src_key ia' = src_key ia2 →
                  gp_ids p' = gp_ids p2 := by
              intro ia' _ p' hp' hk
              have hm' : (ia'.txid, p') ∈ g.chain := lookup_mem _ _ _ hp'
              have h16 := congrArg Prod.fst hk
              simp only [src_key] at h16
              have he' : ia'.txid = ia2.txid :=
                h2 (ia'.txid, p') hm' (ia2.txid, p2) hm2 h16
              have h3 : g.fetch ia2.txid = some p' := he' ▸ hp'
              have hpe : p' = p2 := Option.some.inj (h3.symm.trans hp2)
              exact congrArg gp_ids hpe
            have hv1 := funding_sources_lookup g _ ia1 p1 hia1 hp1 hdet1 []
            have hv2 := funding_sources_lookup g _ ia2 p2 hia2 hp2 hdet2 []
            have hme1 := lookup_mem' _ _ _ hv1
            have hme2 := lookup_mem' _ _ _ hv2
            have hne_e : ((src_key ia1, gp_ids p1) : (String × Nat) × List String)
                ≠ (src_key ia2, gp_ids p2) := by
              intro he
              rw [Prod.mk.injEq] at he
              exact hkey he.1
            have hlen2 := two_mem_le_length _ _ _ hme1 hme2 hne_e
            rcases pair_sublist_of_mem _ _ _ hme1 hme2 hne_e with hsub | hsub
            · have hany : any_disjoint_pair ((funding_sources g
                  (ias.filter fun ia => g.is_ours ia.address)).map Prod.snd) = true :=
                any_disjoint_pair_of_sublist _ _ _
                  (by exact List.Sublist.map Prod.snd hsub) hdj
              exact absurd (by
                rw [Bool.and_eq_true]
                exact ⟨decide_eq_true hlen2, hany⟩) hcond
            · have hany : any_disjoint_pair ((funding_sources g
                  (ias.filter fun ia => g.is_ours ia.address)).map Prod.snd) = true :=
                any_disjoint_pair_of_sublist _ _ _
                  (by exact List.Sublist.map Prod.snd hsub) (disjointB_symm _ _ hdj)
              exact absurd (by
                rw [Bool.and_eq_true]
                exact ⟨decide_eq_true hlen2, hany⟩) hcond

/-- Spec-side grandparent-id set following the claim's words: identified by
the FULL grandparent txid (or the literal marker "coinbase"), without the
source's 16-character truncation. -/
def gp_full_ids (p : DecodedTx) : List String :=
  (p.vin.map fun v => match v with
    | Vin.coinbase _ => "coinbase"
    | Vin.spend ptxid _ _ => ptxid).dedup

/-- Concrete snapshot refuting C5 as stated: the two owned inputs' parents
are funded by two DIFFERENT grandparent txids that share their first 16
characters. -/
def txT5 : DecodedTx :=
  ⟨2, 0, 300, 1, [Vin.spend "Q1" 0 4294967293, Vin.spend "Q2" 0 4294967293],
   [⟨75000, 0, "ext5", "witness_v0_keyhash"⟩]⟩

def txQ1 : DecodedTx :=
  ⟨2, 0, 120, 4, [Vin.spend "aaaaaaaaaaaaaaaa0" 0 4294967295],
   [⟨40000, 0, "b1", "witness_v0_keyhash"⟩]⟩

def txQ2 : DecodedTx :=
  ⟨2, 0, 120, 4, [Vin.spend "aaaaaaaaaaaaaaaa1" 0 4294967295],
   [⟨41000, 0, "b2", "witness_v0_keyhash"⟩]⟩

def gC5 : TxGraph :=
  ⟨[("b1", ⟨"p2wpkh", false, 0⟩), ("b2", ⟨"p2wpkh", false, 1⟩)],
   [⟨"T5", "b1", "send", -40000, 1, 12⟩],
   [],
   [("T5", txT5), ("Q1", txQ1), ("Q2", txQ2)]⟩

/-- C5 (counterexample to the claim as stated): the owned transaction "T5"
has two owned resolved inputs whose one-hop grandparent-TXID sets (full
txids, as the claim reads) are disjoint — yet detector 8 emits NO finding,
because it compares 16-character prefixes and both grandparent txids share
"aaaaaaaaaaaaaaaa". -/
theorem c5_claim_counterexample :
    detect_08_cluster_merge_tx gC5 "T5" = .ok []
    ∧ gC5.get_input_addresses "T5" = .ok [⟨"b1", 40000, "Q1", 0⟩, ⟨"b2", 41000, "Q2", 0⟩]
    ∧ gC5.is_ours "b1" = true ∧ gC5.is_ours "b2" = true
    ∧ gC5.fetch "Q1" = some txQ1 ∧ gC5.fetch "Q2" = some txQ2
    ∧ disjointB (gp_full_ids txQ1) (gp_full_ids txQ2) = true := by
  refine ⟨by decide, by decide, by decide, by decide, by decide, by decide, by decide⟩

/-- Concrete snapshot where the amended C5 fires: distinct grandparent
prefixes. -/
def txT5w : DecodedTx :=
  ⟨2, 0, 300, 1, [Vin.spend "Q1w" 0 4294967293, Vin.spend "Q2w" 0 4294967293],
   [⟨75000, 0, "ext5", "witness_v0_keyhash"⟩]⟩

def txQ1w : DecodedTx :=
  ⟨2, 0, 120, 4, [Vin.spend "g1" 0 4294967295], [⟨40000, 0, "b1", "witness_v0_keyhash"⟩]⟩

def txQ2w : DecodedTx :=
  ⟨2, 0, 120, 4, [Vin.spend "g2" 0 4294967295], [⟨41000, 0, "b2", "witness_v0_keyhash"⟩]⟩

def gC5w : TxGraph :=
  ⟨[("b1", ⟨"p2wpkh", false, 0⟩), ("b2", ⟨"p2wpkh", false, 1⟩)],
   [⟨"T5w", "b1", "send", -40000, 1, 12⟩],
   [],
   [("T5w", txT5w), ("Q1w", txQ1w), ("Q2w", txQ2w)]⟩

/-- The finding detector 8 emits for "T5w" in `gC5w`. -/
def fC5 : Finding :=
  ⟨"CLUSTER_MERGE", "HIGH",
    Details.clusterMerge "T5w" [(("Q1w", 0), ["g1"]), (("Q2w", 0), ["g2"])]⟩

/-! ## The remaining detectors, embedded for the whole-pipeline claims -/

/-- Detector 5 over all owned txids. -/
def detect_05_change_detection (g : TxGraph) : Except Unit (List Finding) :=
  collectM (detect_05_change_detection_tx g) g.our_txids

/-- Detector 8 over all owned txids. -/
def detect_08_cluster_merge (g : TxGraph) : Except Unit (List Finding) :=
  collectM (detect_08_cluster_merge_tx g) g.our_txids

/-- Body of the detector-4 loop for one owned txid: owned inputs of ≤1000
sats are dust, owned inputs of >10000 sats are normal, and a HIGH finding
fires when both classes are present. -/
def detect_04_dust_spending_tx (g : TxGraph) (txid : String) : Except Unit (List Finding) :=
  match g.get_input_addresses txid with
  | .error e => .error e
  | .ok ias =>
      if ias.length < 2 then .ok []
      else if (ias.filter fun ia => g.is_ours ia.address && ia.value ≤ 1000).isEmpty
          || (ias.filter fun ia => g.is_ours ia.address && 10000 < ia.value).isEmpty
      then .ok []
      else .ok [⟨"DUST_SPENDING", "HIGH",
        Details.dustSpending txid
          ((ias.filter fun ia => g.is_ours ia.address && ia.value ≤ 1000).map
            fun d => ⟨d.address, d.value⟩)
          ((ias.filter fun ia => g.is_ours ia.address && 10000 < ia.value).map
            fun m => ⟨m.address, m.value⟩)⟩]

/-- Detector 4 over all owned txids. -/
def detect_04_dust_spending (g : TxGraph) : Except Unit (List Finding) :=
  collectM (detect_04_dust_spending_tx g) g.our_txids

/-- Body of the detector-6 loop for one current UTXO: a MEDIUM finding when
the UTXO's parent has ≥3 inputs and ≤2 outputs. -/
def detect_06_consolidation_utxo (g : TxGraph) (u : Utxo) : Except Unit (List Finding) :=
  if !(g.is_ours u.address) then .ok []
  else
    match g.fetch u.txid with
    | none => .ok []
    | some parent =>
        if 3 ≤ parent.vin.length && parent.vout.length ≤ 2 then
          match g.get_input_addresses u.txid with
          | .error e => .error e
          | .ok pias => .ok [⟨"CONSOLIDATION", "MEDIUM",
              Details.consolidation u.txid u.vout u.amountSats parent.vin.length
                parent.vout.length (pias.filter fun ia => g.is_ours ia.address).length⟩]
        else .ok []

/-- Detector 6 over all current UTXOs. -/
def detect_06_consolidation_origin (g : TxGraph) : Except Unit (List Finding) :=
  collectM (detect_06_consolidation_utxo g) g.utxos

/-- The distinct input script types of a transaction with "unknown"
discarded (`types.discard("unknown")`). -/
def mix_types (g : TxGraph) (ias : List InAddr) : List String :=
  ((ias.map fun ia => g.get_script_type ia.address).dedup).filter fun t => !(t == "unknown")

/-- Body of the detector-7 loop for one owned txid. -/
def detect_07_script_type_mixing_tx (g : TxGraph) (txid : String) :
    Except Unit (List Finding) :=
  match g.get_input_addresses txid with
  | .error e => .error e
  | .ok ias =>
      if ias.length < 2 then .ok []
      else if (ias.filter fun ia => g.is_ours ia.address).length < 2 then .ok []
      else if (mix_types g ias).length < 2 then .ok []
      else .ok [⟨"SCRIPT_TYPE_MIXING", "HIGH",
        Details.scriptTypeMixing txid (sortLe strLeB (mix_types g ias))
          (ias.map fun ia =>
            ⟨ia.address, g.get_script_type ia.address, g.is_ours ia.address⟩)⟩]

/-- Detector 7 over all owned txids. -/
def detect_07_script_type_mixing (g : TxGraph) : Except Unit (List Finding) :=
  collectM (detect_07_script_type_mixing_tx g) g.our_txids

theorem cluster_merge_amended_witness :
    (([fC5] : List Finding) ≠ [] ↔ ∃ ias, gC5w.get_input_addresses "T5w" = .ok ias ∧
      2 ≤ ias.length ∧ 2 ≤ (ias.filter fun ia => gC5w.is_ours ia.address).length ∧
      ∃ ia1 ∈ ias.filter fun ia => gC5w.is_ours ia.address,
      ∃ ia2 ∈ ias.filter fun ia => gC5w.is_ours ia.address,
      ∃ p1 p2, gC5w.fetch ia1.txid = some p1 ∧ gC5w.fetch ia2.txid = some p2 ∧
        disjointB (gp_ids p1) (gp_ids p2) = true)
    ∧ ∀ f ∈ ([fC5] : List Finding), f.ftype = "CLUSTER_MERGE" ∧ f.severity = "HIGH" :=
  cluster_merge_amended gC5w (by unfold nonempty_vins; decide)
    (by unfold src16_inj; decide) "T5w" [fC5] (by decide)

/-- The distinct nonempty output addresses of a transaction (detector 10's
`unique_addrs` set). -/
def uniq_out_addrs (tx : DecodedTx) : List String :=
  ((tx.vout.map fun v => v.address).filter fun a => !(a == "")).dedup

/-- Sum of the resolved input values, in sats. -/
def inputTotal (ias : List InAddr) : Int :=
  ias.foldl (fun s ia => s + ia.value) 0

/-- The median output value (`sorted(...)[len // 2]`), when any output
exists. -/
def median_out (tx : DecodedTx) : Option Int :=
  match sortLe (fun a b : Int => decide (a ≤ b)) (tx.vout.map fun v => v.value) with
  | [] => none
  | v :: vs => (v :: vs).get? ((v :: vs).length / 2)

/-- The exchange-batch signals of detector 10, in the source's order.  The
ratio test `input_total / median_out > 10` is expressed over sats, and the
reported `{ratio:.0f}` uses Python's half-to-even rounding. -/
def exchange_signals (_g : TxGraph) (exch : List String) (txid : String) (tx : DecodedTx)
    (ias : List InAddr) : List Signal :=
  [Signal.highOutputCount tx.vout.length]
  ++ (if 5 ≤ (uniq_out_addrs tx).length
      then [Signal.uniqueRecipients (uniq_out_addrs tx).length] else [])
  ++ (if exch.contains txid then [Signal.knownExchange] else [])
  ++ (match median_out tx with
      | none => []
      | some med =>
          if 0 < med && 10 * med < inputTotal ias
          then [Signal.hotWalletPattern (pyRoundDiv (inputTotal ias) med)] else [])

/-- Body of the detector-10 loop for one owned txid, given the set of known
exchange txids. -/
def detect_10_exchange_origin_tx (g : TxGraph) (exch : List String) (txid : String) :
    Except Unit (List Finding) :=
  match g.fetch txid with
  | none => .ok []
  | some tx =>
      if tx.vout.length < 5 then .ok []
      else
        match g.get_input_addresses txid with
        | .error e => .error e
        | .ok ias =>
            if !(ias.filter fun ia => g.is_ours ia.address).isEmpty then .ok []
            else if ((g.get_output_addresses txid).filter fun o => g.is_ours o.address).isEmpty
            then .ok []
            else if 2 ≤ (exchange_signals g exch txid tx ias).length
            then .ok [⟨"EXCHANGE_ORIGIN", "MEDIUM",
              Details.exchangeOrigin txid (exchange_signals g exch txid tx ias)
                (((g.get_output_addresses txid).filter fun o => g.is_ours o.address).map
                  fun o => ⟨o.address, o.value⟩)⟩]
            else .ok []

/-- Detector 10 over all owned txids. -/
def detect_10_exchange_origin (g : TxGraph) (exch : List String) :
    Except Unit (List Finding) :=
  collectM (detect_10_exchange_origin_tx g exch) g.our_txids

/-- Body of the detector-11 merge loop for one owned txid, given the set of
risky txids: a HIGH finding when tainted and clean inputs are merged. -/
def detect_11_tainted_tx (g : TxGraph) (risky : List String) (txid : String) :
    Except Unit (List Finding) :=
  match g.get_input_addresses txid with
  | .error e => .error e
  | .ok ias =>
      if (ias.filter fun ia => g.is_ours ia.address).isEmpty then .ok []
      else if ias.length < 2 then .ok []
      else if (ias.filter fun ia => risky.contains ia.txid).isEmpty
          || (ias.filter fun ia => !(risky.contains ia.txid)).isEmpty then .ok []
      else .ok [⟨"TAINTED_UTXO_MERGE", "HIGH",
        Details.taintedMerge txid
          ((ias.filter fun ia => risky.contains ia.txid).map
            fun d => ⟨d.address, d.value, d.txid⟩)
          ((ias.filter fun ia => !(risky.contains ia.txid)).map fun c => ⟨c.address, c.value⟩)
          (pyRoundDiv (100 * ((ias.filter fun ia => risky.contains ia.txid).length : Int))
            (ias.length : Int))⟩]

/-- The direct-taint warning loop body of detector 11 for one owned txid. -/
def detect_11_direct_warn (g : TxGraph) (risky : List String) (txid : String) :
    List Finding :=
  if risky.contains txid then
    if ((g.get_output_addresses txid).filter fun o => g.is_ours o.address).isEmpty then []
    else [⟨"DIRECT_TAINT", "HIGH",
      Details.directTaint txid
        (((g.get_output_addresses txid).filter fun o => g.is_ours o.address).map
          fun o => ⟨o.address, o.value⟩)⟩]
  else []

/-- Detector 11: skipped entirely without risky-wallet metadata or with an
empty risky-txid set; otherwise the merge findings, then the direct-taint
warnings. -/
def detect_11_tainted_utxos (g : TxGraph) (risky : Option (List String)) :
    Except Unit (List Finding × List Finding) :=
  match risky with
  | none => .ok ([], [])
  | some rl =>
      if rl.isEmpty then .ok ([], [])
      else
        match collectM (detect_11_tainted_tx g rl) g.our_txids with
        | .error e => .error e
        | .ok fs => .ok (fs, g.our_txids.flatMap (detect_11_direct_warn g rl))

/-- Python set insertion: append if absent (insertion-ordered model of one
`set.add`). -/
def setAdd {α : Type} [BEq α] (l : List α) (x : α) : List α :=
  if l.contains x then l else l ++ [x]

/-- The feature accumulators of detector 12, in declaration order. -/
structure FpAcc where
  output_counts : List Nat
  payment_amounts_sats : List Int
  change_amounts_sats : List Int
  input_script_types : List String
  output_script_types : List String
  rbf_signals : List Bool
  locktime_values : List Nat
  fee_rates : List ℚ
  n_inputs_list : List Nat
  uses_round_amounts : Nat
  total_payments : Nat
  change_types : List String
  payment_types : List String
  version_numbers : List Int
deriving DecidableEq

def fpInit : FpAcc := ⟨[], [], [], [], [], [], [], [], [], 0, 0, [], [], []⟩

/-- The sequence number of an input. -/
def Vin.seq : Vin → Nat
  | .coinbase s => s
  | .spend _ _ s => s

/-- Sum of output values, in sats. -/
def outTotal (vs : List TxOut) : Int :=
  vs.foldl (fun s v => s + v.value) 0

/-- One iteration of detector 12's feature-extraction loop. -/
def fp_step (g : TxGraph) (acc : FpAcc) (txid : String) : Except Unit FpAcc :=
  match g.fetch txid with
  | none => .ok acc
  | some tx =>
      match g.get_input_addresses txid with
      | .error e => .error e
      | .ok ias => .ok
          { output_counts := acc.output_counts ++ [tx.vout.length]
            payment_amounts_sats := acc.payment_amounts_sats ++
              (((g.get_output_addresses txid).filter fun o => !(g.is_ours o.address)).map
                fun o => o.value)
            change_amounts_sats := acc.change_amounts_sats ++
              (((g.get_output_addresses txid).filter fun o => g.is_ours o.address).map
                fun o => o.value)
            input_script_types := acc.input_script_types ++
              ((ias.filter fun ia => g.is_ours ia.address).map
                fun ia => g.get_script_type ia.address)
            output_script_types := acc.output_script_types ++
              (((g.get_output_addresses txid).filter fun o => !(g.is_ours o.address)).map
                fun o => o.otype)
            rbf_signals := acc.rbf_signals ++
              (tx.vin.map fun v => decide (v.seq < 4294967294))
            locktime_values := acc.locktime_values ++ [tx.locktime]
            fee_rates := acc.fee_rates ++
              (if 0 < tx.vsize && 0 < inputTotal ias - outTotal tx.vout
               then [((inputTotal ias - outTotal tx.vout : Int) : ℚ) / (tx.vsize : ℚ)]
               else [])
            n_inputs_list := acc.n_inputs_list ++ [tx.vin.length]
            uses_round_amounts := acc.uses_round_amounts +
              ((g.get_output_addresses txid).filter fun o =>
                !(g.is_ours o.address) && 0 < o.value && round_sats o.value).length
            total_payments := acc.total_payments +
              ((g.get_output_addresses txid).filter fun o => !(g.is_ours o.address)).length
            change_types :=
              ((((g.get_output_addresses txid).filter fun o => g.is_ours o.address).map
                fun o => o.otype).foldl setAdd acc.change_types)
            payment_types :=
              ((((g.get_output_addresses txid).filter fun o => !(g.is_ours o.address)).map
                fun o => o.otype).foldl setAdd acc.payment_types)
            version_numbers := setAdd acc.version_numbers tx.version }

/-- One step of the send-transaction collection: keep the txid when some
resolved input is owned. -/
def send_step (g : TxGraph) (acc : List String) (txid : String) :
    Except Unit (List String) :=
  match g.get_input_addresses txid with
  | .error e => .error e
  | .ok ias =>
      .ok (if (ias.filter fun ia => g.is_ours ia.address).isEmpty then acc
           else acc ++ [txid])

/-- The send txids of detector 12, in owned-txid order. -/
def send_txs (g : TxGraph) : Except Unit (List String) :=
  foldME (send_step g) [] g.our_txids

def qSum (l : List ℚ) : ℚ := l.foldl (· + ·) 0

def qAvg (l : List ℚ) : ℚ := qSum l / (l.length : ℚ)

def qVar (l : List ℚ) : ℚ :=
  (l.foldl (fun s f => s + (f - qAvg l) ^ 2) 0) / (l.length : ℚ)

def subsetB (a b : List String) : Bool := a.all fun x => b.contains x

/-- Detector 12's pattern analysis over the extracted features, in the
source's order.  The coefficient-of-variation test `stddev / avg < 0.15`
is expressed squared (`variance < (0.15 · avg)²`), avoiding the square
root. -/
def fp_problems (acc : FpAcc) : List Pattern :=
  (if 0 < acc.total_payments
      && 60 * acc.total_payments < 100 * acc.uses_round_amounts
   then [Pattern.roundAmounts
     (pyRoundDiv (100 * (acc.uses_round_amounts : Int)) (acc.total_payments : Int))]
   else [])
  ++ (match acc.output_counts with
      | [] => []
      | c :: cs =>
          if ((c :: cs).all fun x => x == c) && 3 ≤ (c :: cs).length
          then [Pattern.uniformOutputCount c (c :: cs).length] else [])
  ++ (if 2 ≤ acc.input_script_types.dedup.length
      then [Pattern.mixedInputTypes acc.input_script_types.dedup]
      else match acc.input_script_types.dedup with
        | [t] => if t == "p2pkh" then [Pattern.legacyOnly] else []
        | _ => [])
  ++ (match acc.rbf_signals with
      | [] => []
      | b :: bs =>
          if (b :: bs).all (fun x => x == true) then [Pattern.rbfAlways]
          else if (b :: bs).all (fun x => x == false) then [Pattern.rbfNever]
          else [])
  ++ (match acc.locktime_values with
      | [] => []
      | l :: ls =>
          if ((l :: ls).filter fun x => 0 < x).length == (l :: ls).length
              && 3 ≤ (l :: ls).length
          then [Pattern.locktimeAlways]
          else if ((l :: ls).filter fun x => 0 < x).isEmpty && 3 ≤ (l :: ls).length
          then [Pattern.locktimeZero]
          else [])
  ++ (if 3 ≤ acc.fee_rates.length then
        if 0 < qAvg acc.fee_rates then
          if qVar acc.fee_rates < (3 / 20 * qAvg acc.fee_rates) ^ 2
          then [Pattern.steadyFeeRate (qAvg acc.fee_rates)] else []
        else []
      else [])
  ++ (if !acc.change_types.isEmpty && !acc.payment_types.isEmpty
          && !(subsetB acc.change_types acc.payment_types
               && subsetB acc.payment_types acc.change_types)
      then [Pattern.changeTypeDistinct acc.change_types acc.payment_types] else [])
  ++ (match acc.n_inputs_list with
      | [] => []
      | n :: ns =>
          if 3 ≤ (n :: ns).length then
            if (n :: ns).all (fun x => x == 1) then []
            else if ((n :: ns).all fun x => x == n) && 1 < n
            then [Pattern.constantInputCount n] else []
          else [])

/-- Detector 12: behavioural fingerprint over the send transactions. -/
def detect_12_behavioral_fingerprint (g : TxGraph) : Except Unit (List Finding) :=
  match send_txs g with
  | .error e => .error e
  | .ok sts =>
      if sts.length < 3 then .ok []
      else
        match foldME (fp_step g) fpInit sts with
        | .error e => .error e
        | .ok acc =>
            if (fp_problems acc).isEmpty then .ok []
            else .ok [⟨"BEHAVIORAL_FINGERPRINT", "MEDIUM",
              Details.behavioralFingerprint sts.length (fp_problems acc)⟩]

/-! ## The pipeline (`main`, step 6): twelve detectors appending to the
`FINDINGS` and `WARNINGS` globals in order -/

/-- One detector hand-off: append the freshly emitted findings and warnings
to the `FINDINGS` and `WARNINGS` accumulators. -/
def pipe_append (st : List Finding × List Finding) (nf nw : List Finding) :
    List Finding × List Finding := (st.1 ++ nf, st.2 ++ nw)

/-- `main`'s detector sequence, threading the `FINDINGS` and `WARNINGS`
accumulators through detectors 1–12 in call order; an uncaught detector
exception aborts the run. -/
def runAccum (g : TxGraph) (exch : List String) (risky : Option (List String))
    (fs0 ws0 : List Finding) : Except Unit (List Finding × List Finding) :=
  match detect_02_cioh g with
  | .error e => .error e
  | .ok f2 =>
      match detect_04_dust_spending g with
      | .error e => .error e
      | .ok f4 =>
          match detect_05_change_detection g with
          | .error e => .error e
          | .ok f5 =>
              match detect_06_consolidation_origin g with
              | .error e => .error e
              | .ok f6 =>
                  match detect_07_script_type_mixing g with
                  | .error e => .error e
                  | .ok f7 =>
                      match detect_08_cluster_merge g with
                      | .error e => .error e
                      | .ok f8 =>
                          match detect_10_exchange_origin g exch with
                          | .error e => .error e
                          | .ok f10 =>
                              match detect_11_tainted_utxos g risky with
                              | .error e => .error e
                              | .ok p11 =>
                                  match detect_12_behavioral_fingerprint g with
                                  | .error e => .error e
                                  | .ok f12 => .ok
                                      (pipe_append (pipe_append (pipe_append (pipe_append
                                        (pipe_append (pipe_append (pipe_append (pipe_append
                                        (pipe_append (pipe_append (pipe_append (pipe_append
                                          (fs0, ws0)
                                          (detect_01_address_reuse g) []) f2 [])
                                          (detect_03_dust g) []) f4 []) f5 []) f6 []) f7 [])
                                          f8 []) (detect_09_lookback_depth g).1
                                                 (detect_09_lookback_depth g).2) f10 [])
                                          p11.1 p11.2) f12 [])

/-- The full run: detectors over the snapshot, starting from empty
`FINDINGS`/`WARNINGS`. -/
def run_detectors (g : TxGraph) (exch : List String) (risky : Option (List String)) :
    Except Unit (List Finding × List Finding) :=
  runAccum g exch risky [] []

/-! ## Claim C8 — pipeline idempotence and detector-order concatenation -/

/-- C8: two runs of the twelve-detector pipeline against the same unchanged
snapshot yield identical Finding and Warning lists, and those lists are the
individual detectors' outputs concatenated in detector order 1 through 12
(warnings: detector 9's dormant warning, then detector 11's direct-taint
warnings). -/
theorem pipeline_idempotent_concat (g : TxGraph) (exch : List String)
    (risky : Option (List String)) (fs ws fs' ws' : List Finding)
    (h1 : run_detectors g exch risky = .ok (fs, ws))
    (h2 : run_detectors g exch risky = .ok (fs', ws')) :
    (fs = fs' ∧ ws = ws')
    ∧ ∃ f2 f4 f5 f6 f7 f8 f10 p11 f12,
        detect_02_cioh g = .ok f2
        ∧ detect_04_dust_spending g = .ok f4
        ∧ detect_05_change_detection g = .ok f5
        ∧ detect_06_consolidation_origin g = .ok f6
        ∧ detect_07_script_type_mixing g = .ok f7
        ∧ detect_08_cluster_merge g = .ok f8
        ∧ detect_10_exchange_origin g exch = .ok f10
        ∧ detect_11_tainted_utxos g risky = .ok p11
        ∧ detect_12_behavioral_fingerprint g = .ok f12
        ∧ fs = detect_01_address_reuse g ++ f2 ++ detect_03_dust g ++ f4 ++ f5 ++ f6
            ++ f7 ++ f8 ++ (detect_09_lookback_depth g).1 ++ f10 ++ p11.1 ++ f12
        ∧ ws = (detect_09_lookback_depth g).2 ++ p11.2 := by
  refine ⟨?_, ?_⟩
  · have hp := Except.ok.inj (h1.symm.trans h2)
    exact ⟨congrArg Prod.fst hp, congrArg Prod.snd hp⟩
  · unfold run_detectors runAccum at h1
    cases hd2 : detect_02_cioh g with
    | error e => simp only [hd2] at h1; exact Except.noConfusion h1
    | ok f2 =>
    simp only [hd2] at h1
    cases hd4 : detect_04_dust_spending g with
    | error e => simp only [hd4] at h1; exact Except.noConfusion h1
    | ok f4 =>
    simp only [hd4] at h1
    cases hd5 : detect_05_change_detection g with
    | error e => simp only [hd5] at h1; exact Except.noConfusion h1
    | ok f5 =>
    simp only [hd5] at h1
    cases hd6 : detect_06_consolidation_origin g with
    | error e => simp only [hd6] at h1; exact Except.noConfusion h1
    | ok f6 =>
    simp only [hd6] at h1
    cases hd7 : detect_07_script_type_mixing g with
    | error e => simp only [hd7] at h1; exact Except.noConfusion h1
    | ok f7 =>
    simp only [hd7] at h1
    cases hd8 : detect_08_cluster_merge g with
    | error e => simp only [hd8] at h1; exact Except.noConfusion h1
    | ok f8 =>
    simp only [hd8] at h1
    cases hd10 : detect_10_exchange_origin g exch with
    | error e => simp only [hd10] at h1; exact Except.noConfusion h1
    | ok f10 =>
    simp only [hd10] at h1
    cases hd11 : detect_11_tainted_utxos g risky with
    | error e => simp only [hd11] at h1; exact Except.noConfusion h1
    | ok p11 =>
    simp only [hd11] at h1
    cases hd12 : detect_12_behavioral_fingerprint g with
    | error e => simp only [hd12] at h1; exact Except.noConfusion h1
    | ok f12 =>
    simp only [hd12] at h1
    have hp := Except.ok.inj h1
    refine ⟨f2, f4, f5, f6, f7, f8, f10, p11, f12,
      rfl, rfl, rfl, rfl, rfl, rfl, rfl, rfl, rfl, ?_, ?_⟩
    · have hf := congrArg Prod.fst hp
      simp only [pipe_append] at hf
      rw [← hf]
      simp [List.append_assoc]
    · have hw := congrArg Prod.snd hp
      simp only [pipe_append] at hw
      rw [← hw]
      simp [List.append_assoc]

/-- A small concrete snapshot for the pipeline witness. -/
def tx8 : DecodedTx :=
  ⟨2, 0, 110, 3, [Vin.coinbase 4294967295], [⟨5000, 0, "a8", "witness_v0_keyhash"⟩]⟩

def gC8 : TxGraph :=
  ⟨[("a8", ⟨"p2wpkh", false, 0⟩)],
   [⟨"T8", "a8", "receive", 5000, 3, 100⟩],
   [],
   [("T8", tx8)]⟩

theorem pipeline_idempotent_concat_witness :
    ((([] : List Finding) = [] ∧ ([] : List Finding) = [])
    ∧ ∃ f2 f4 f5 f6 f7 f8 f10 p11 f12,
        detect_02_cioh gC8 = .ok f2
        ∧ detect_04_dust_spending gC8 = .ok f4
        ∧ detect_05_change_detection gC8 = .ok f5
        ∧ detect_06_consolidation_origin gC8 = .ok f6
        ∧ detect_07_script_type_mixing gC8 = .ok f7
        ∧ detect_08_cluster_merge gC8 = .ok f8
        ∧ detect_10_exchange_origin gC8 [] = .ok f10
        ∧ detect_11_tainted_utxos gC8 none = .ok p11
        ∧ detect_12_behavioral_fingerprint gC8 = .ok f12
        ∧ ([] : List Finding) = detect_01_address_reuse gC8 ++ f2 ++ detect_03_dust gC8
            ++ f4 ++ f5 ++ f6 ++ f7 ++ f8 ++ (detect_09_lookback_depth gC8).1 ++ f10
            ++ p11.1 ++ f12
        ∧ ([] : List Finding) = (detect_09_lookback_depth gC8).2 ++ p11.2) :=
  pipeline_idempotent_concat gC8 [] none [] [] [] [] (by decide) (by decide)

/-! ## Claim C10 — input-resolution semantics -/

theorem mapME_ok_of_all {ε α β : Type} (f : α → Except ε β) (fp : α → β) (l : List α)
    (h : ∀ a ∈ l, f a = .ok (fp a)) : mapME f l = .ok (l.map fp) := by
  induction l with
  | nil => rfl
  | cons a as ih =>
      have ha := h a (List.mem_cons_self a as)
      have ih' := ih fun x hx => h x (List.mem_cons_of_mem a hx)
      simp only [mapME, bind, Except.bind, ha, ih', List.map, pure, Except.pure]

theorem length_filterMap_filter {α β : Type} (f : α → Option β) (p : α → Bool)
    (l : List α) (h : ∀ a ∈ l, (f a).isSome = p a) :
    (l.filterMap f).length = (l.filter p).length := by
  induction l with
  | nil => rfl
  | cons a as ih =>
      have ha := h a (List.mem_cons_self a as)
      have ih' := ih fun x hx => h x (List.mem_cons_of_mem a hx)
      cases hf : f a with
      | none =>
          rw [hf] at ha
          simp only [List.filterMap_cons, hf, List.filter_cons, ← ha]
          simpa using ih'
      | some b =>
          rw [hf] at ha
          simp only [List.filterMap_cons, hf, List.filter_cons, ← ha]
          simpa using ih'

/-- Under decodable-data well-formedness, a spend input of a decodable
transaction with a decodable parent references an existing parent output. -/
theorem wfb_in_range (g : TxGraph) (hwf : g.WFB = true) (t : String) (tx : DecodedTx)
    (hft : g.fetch t = some tx) (pt : String) (pv s : Nat)
    (hv : Vin.spend pt pv s ∈ tx.vin) (parent : DecodedTx)
    (hp : g.fetch pt = some parent) : pv < parent.vout.length := by
  have hmem : (t, tx) ∈ g.chain := lookup_mem _ _ _ hft
  unfold TxGraph.WFB at hwf
  have h1 := List.all_eq_true.mp hwf (t, tx) hmem
  have h2 := List.all_eq_true.mp h1 (Vin.spend pt pv s) hv
  simp only [hp] at h2
  exact of_decide_eq_true h2

/-- Under well-formedness, the raising single-input resolution agrees with
its total counterpart on every input of a decodable transaction. -/
theorem resolve_vin_eq_pure (g : TxGraph) (hwf : g.WFB = true) (t : String)
    (tx : DecodedTx) (hft : g.fetch t = some tx) (v : Vin) (hv : v ∈ tx.vin) :
    g.resolve_vin v = .ok (g.resolve_pure v) := by
  cases v with
  | coinbase s => rfl
  | spend pt pv s =>
      unfold TxGraph.resolve_vin TxGraph.resolve_pure
      cases hp : g.fetch pt with
      | none => simp only [hp]
      | some parent =>
          have hlt := wfb_in_range g hwf t tx hft pt pv s hv parent hp
          simp only [hp]
          cases hg : parent.vout.get? pv with
          | none =>
              have := List.get?_eq_none.mp hg
              omega
          | some vd => simp only [hg]

/-- The fetchable-parent non-coinbase test of one input. -/
def vinResolvable (g : TxGraph) (v : Vin) : Bool :=
  match v with
  | Vin.coinbase _ => false
  | Vin.spend pt _ _ => (g.fetch pt).isSome

/-- Under well-formedness, an input resolves exactly when it is a
non-coinbase input whose funding transaction is decodable. -/
theorem resolve_pure_isSome (g : TxGraph) (hwf : g.WFB = true) (t : String)
    (tx : DecodedTx) (hft : g.fetch t = some tx) (v : Vin) (hv : v ∈ tx.vin) :
    (g.resolve_pure v).isSome = vinResolvable g v := by
  cases v with
  | coinbase s => rfl
  | spend pt pv s =>
      unfold TxGraph.resolve_pure vinResolvable
      cases hp : g.fetch pt with
      | none => simp [hp]
      | some parent =>
          have hlt := wfb_in_range g hwf t tx hft pt pv s hv parent hp
          simp only [hp]
          cases hg : parent.vout.get? pv with
          | none =>
              have := List.get?_eq_none.mp hg
              omega
          | some vd => simp [hg]

theorem get_input_addresses_resolved (g : TxGraph) (hwf : g.WFB = true) (t : String)
    (tx : DecodedTx) (hft : g.fetch t = some tx) :
    g.get_input_addresses t = .ok (tx.vin.filterMap g.resolve_pure) := by
  unfold TxGraph.get_input_addresses
  simp only [hft]
  rw [mapME_ok_of_all g.resolve_vin g.resolve_pure tx.vin
    fun v hv => resolve_vin_eq_pure g hwf t tx hft v hv]
  show Except.ok ((tx.vin.map g.resolve_pure).filterMap id)
    = Except.ok (tx.vin.filterMap g.resolve_pure)
  rw [List.filterMap_map, Function.id_comp]

/-- C10: under decodable-data well-formedness, `get_input_addresses` never
fails — it returns `[]` when the transaction itself is not decodable, and
otherwise exactly one entry per non-coinbase input with a decodable funding
transaction, a list that can be strictly shorter than the input list; and
the detectors' input-count / ownership tests are computed over this
resolved list: detector 2's counts are the resolved list's, and detector 10
emits only when the resolved owned-input list is empty. -/
theorem input_resolution_semantics (g : TxGraph) (hwf : g.WFB = true) (t : String) :
    (g.fetch t = none → g.get_input_addresses t = .ok [])
    ∧ (∀ tx, g.fetch t = some tx →
        g.get_input_addresses t = .ok (tx.vin.filterMap g.resolve_pure)
        ∧ (tx.vin.filterMap g.resolve_pure).length ≤ tx.vin.length
        ∧ (tx.vin.filterMap g.resolve_pure).length
            = (tx.vin.filter (vinResolvable g)).length)
    ∧ (∀ fs, detect_02_cioh_tx g t = .ok fs → ∀ f ∈ fs,
        ∃ ias, g.get_input_addresses t = .ok ias ∧
          f.details = Details.cioh t ias.length
            (ias.filter fun ia => g.is_ours ia.address).length
            (ias.filter fun ia => !(g.is_ours ia.address)).length
            (pyRoundDiv (100 * ((ias.filter fun ia => g.is_ours ia.address).length : Int))
              (ias.length : Int))
            ((ias.filter fun ia => g.is_ours ia.address).map
              fun ia => ⟨ia.address, g.role_of ia.address, ia.value⟩))
    ∧ (∀ exch fs, detect_10_exchange_origin_tx g exch t = .ok fs → fs ≠ [] →
        ∃ ias, g.get_input_addresses t = .ok ias ∧
          (ias.filter fun ia => g.is_ours ia.address) = []) := by
  refine ⟨?_, ?_, ?_, ?_⟩
  · intro hn
    unfold TxGraph.get_input_addresses
    simp only [hn]
  · intro tx hft
    refine ⟨get_input_addresses_resolved g hwf t tx hft, ?_, ?_⟩
    · exact List.length_filterMap_le _ _
    · exact length_filterMap_filter g.resolve_pure (vinResolvable g) tx.vin
        fun v hv => resolve_pure_isSome g hwf t tx hft v hv
  · intro fs h f hf
    unfold detect_02_cioh_tx at h
    cases hft : g.fetch t with
    | none =>
        simp only [hft] at h
        cases h
        cases hf
    | some tx =>
        simp only [hft] at h
        by_cases h1 : tx.vin.length < 2
        · rw [if_pos h1] at h
          cases h
          cases hf
        · rw [if_neg h1] at h
          cases hia : g.get_input_addresses t with
          | error e =>
              simp only [hia] at h
              exact Except.noConfusion h
          | ok ias =>
              simp only [hia] at h
              by_cases h2 : ias.length < 2
              · rw [if_pos h2] at h
                cases h
                cases hf
              · rw [if_neg h2] at h
                by_cases h3 : (ias.filter fun ia => g.is_ours ia.address).length < 2
                · rw [if_pos h3] at h
                  cases h
                  cases hf
                · rw [if_neg h3] at h
                  cases h
                  rcases List.mem_singleton.mp hf with rfl
                  exact ⟨ias, rfl, rfl⟩
  · intro exch fs h hne
    unfold detect_10_exchange_origin_tx at h
    cases hft : g.fetch t with
    | none =>
        simp only [hft] at h
        cases h
        exact absurd rfl hne
    | some tx =>
        simp only [hft] at h
        by_cases h1 : tx.vout.length < 5
        · rw [if_pos h1] at h
          cases h
          exact absurd rfl hne
        · rw [if_neg h1] at h
          cases hia : g.get_input_addresses t with
          | error e =>
              simp only [hia] at h
              exact Except.noConfusion h
          | ok ias =>
              simp only [hia] at h
              by_cases h2 : ((ias.filter fun ia => g.is_ours ia.address).isEmpty : Bool) = true
              · refine ⟨ias, rfl, ?_⟩
                exact List.isEmpty_iff.mp h2
              · have hb : (!(ias.filter fun ia => g.is_ours ia.address).isEmpty) = true := by
                  cases hb2 : (ias.filter fun ia => g.is_ours ia.address).isEmpty with
                  | true => exact absurd hb2 h2
                  | false => rfl
                rw [if_pos hb] at h
                cases h
                exact absurd rfl hne

/-- Concrete snapshot for the C10 witness: tx "T10" has two decodable
parents and one undecodable one, so the resolved list has 2 of 3 entries. -/
def txA10 : DecodedTx :=
  ⟨2, 0, 120, 5, [Vin.coinbase 4294967295], [⟨60000, 0, "c1", "witness_v0_keyhash"⟩]⟩

def txB10 : DecodedTx :=
  ⟨2, 0, 120, 5, [Vin.coinbase 4294967295], [⟨70000, 0, "x1", "witness_v0_keyhash"⟩]⟩

def txT10 : DecodedTx :=
  ⟨2, 0, 200, 2,
   [Vin.spend "A10" 0 4294967293, Vin.spend "B10" 0 4294967293,
    Vin.spend "M10" 0 4294967293],
   [⟨120000, 0, "x2", "witness_v0_keyhash"⟩]⟩

def gC10 : TxGraph :=
  ⟨[("c1", ⟨"p2wpkh", false, 0⟩)],
   [⟨"T10", "c1", "send", -60000, 2, 50⟩],
   [],
   [("T10", txT10), ("A10", txA10), ("B10", txB10)]⟩

theorem input_resolution_semantics_witness :
    gC10.WFB = true
    ∧ ((gC10.fetch "T10" = none → gC10.get_input_addresses "T10" = .ok [])
    ∧ (∀ tx, gC10.fetch "T10" = some tx →
        gC10.get_input_addresses "T10" = .ok (tx.vin.filterMap gC10.resolve_pure)
        ∧ (tx.vin.filterMap gC10.resolve_pure).length ≤ tx.vin.length
        ∧ (tx.vin.filterMap gC10.resolve_pure).length
            = (tx.vin.filter (vinResolvable gC10)).length)
    ∧ (∀ fs, detect_02_cioh_tx gC10 "T10" = .ok fs → ∀ f ∈ fs,
        ∃ ias, gC10.get_input_addresses "T10" = .ok ias ∧
          f.details = Details.cioh "T10" ias.length
            (ias.filter fun ia => gC10.is_ours ia.address).length
            (ias.filter fun ia => !(gC10.is_ours ia.address)).length
            (pyRoundDiv (100 * ((ias.filter fun ia => gC10.is_ours ia.address).length : Int))
              (ias.length : Int))
            ((ias.filter fun ia => gC10.is_ours ia.address).map
              fun ia => ⟨ia.address, gC10.role_of ia.address, ia.value⟩))
    ∧ (∀ exch fs, detect_10_exchange_origin_tx gC10 exch "T10" = .ok fs → fs ≠ [] →
        ∃ ias, gC10.get_input_addresses "T10" = .ok ias ∧
          (ias.filter fun ia => gC10.is_ours ia.address) = [])) :=
  ⟨by decide, input_resolution_semantics gC10 (by decide) "T10"⟩

end Detect
